import Mathlib

/-!
Verification of the Memory-Market-Maker core (order book, position tracker,
object pool, book registry, scenario driver) against its natural-language
specification.  The C++ sources are shallowly embedded: each C++ function
becomes a Lean function over an explicit state structure.  Machine integers
are modelled as `Nat`/`Int`; `uint32` arithmetic that can wrap is written
with explicit `% 2^32` wrappers (`u32add`, `u32sub`); `int64` arithmetic is
modelled as `Int` (the spec restricts prices to half the representable
range, §3), with C++ `int64_t` division rendered as `Int.tdiv` (truncation
toward zero).  Wall-clock timestamps (`get_timestamp`, `last_update`,
`Order.timestamp`) are omitted from the state: they are real-time values no
claim mentions.
-/

namespace MM

/- C++ type correspondence (`types.hpp`), written out as plain Lean types
(an `abbrev` would hide the arithmetic from tactics such as `omega`):
`Price` (int64 ticks) and `PnL` (int64) are `Int`; `Quantity` (uint32
shares), `OrderId` (uint64) and `SymbolId` (uint16) are `Nat`, with wrap
applied explicitly at the `uint32` arithmetic sites. -/

/-- Wrap modulus of `uint32`. -/
def U32 : Nat := 2 ^ 32

/-- C++ `uint32_t` addition (wraps modulo `2^32`). -/
def u32add (a b : Nat) : Nat := (a + b) % U32

/-- C++ `uint32_t` subtraction (wraps modulo `2^32`). -/
def u32sub (a b : Nat) : Nat := (a % U32 + (U32 - b % U32)) % U32

theorem u32add_eq {a b : Nat} (h : a + b < U32) : u32add a b = a + b := by
  simp [u32add, Nat.mod_eq_of_lt h]

theorem u32sub_eq {a b : Nat} (hba : b ≤ a) (h : a < U32) : u32sub a b = a - b := by
  have hb : b < U32 := lt_of_le_of_lt hba h
  have hU : 0 < U32 := by norm_num [U32]
  simp only [u32sub, Nat.mod_eq_of_lt h, Nat.mod_eq_of_lt hb]
  have h1 : a + (U32 - b) = (a - b) + U32 := by omega
  rw [h1, Nat.add_mod_right, Nat.mod_eq_of_lt (by omega)]

/-- `types.hpp` `OrderSide`. -/
inductive OrderSide where
  | buy
  | sell
deriving DecidableEq, Repr

/-- `types.hpp` `OrderType`. -/
inductive OrderType where
  | market
  | limit
  | stop
deriving DecidableEq, Repr

/-- `types.hpp` `OrderStatus`. -/
inductive OrderStatus where
  | pending
  | active
  | filled
  | cancelled
  | rejected
deriving DecidableEq, Repr

/-! ## Position tracker (`position_tracker.hpp` / `position_tracker.cpp`) -/

/-- `position_tracker.hpp` `Position` (timestamp field omitted). -/
structure Position where
  symbol : Nat
  long_quantity : Nat
  short_quantity : Nat
  avg_long_price : Int
  avg_short_price : Int
  realized_pnl : Int
  unrealized_pnl : Int
deriving DecidableEq, Repr

/-- `Position()` default constructor: all fields zero. -/
def Position.default : Position :=
  ⟨0, 0, 0, 0, 0, 0, 0⟩

/-- `Position::get_net_position`: int64 long minus short. -/
def Position.get_net_position (p : Position) : Int :=
  (p.long_quantity : Int) - (p.short_quantity : Int)

/-- `Position::get_total_position`: uint32 sum of the two legs. -/
def Position.get_total_position (p : Position) : Nat :=
  u32add p.long_quantity p.short_quantity

/-- `position_tracker.hpp` `Trade` journal entry (timestamp omitted). -/
structure Trade where
  symbol : Nat
  price : Int
  quantity : Nat
  side : OrderSide
  order_id : Nat
deriving DecidableEq, Repr

/-- `position_tracker.hpp` `PositionLimits`. -/
structure PositionLimits where
  max_position_size : Nat
  max_long_position : Nat
  max_short_position : Nat
  max_daily_loss : Int
  max_drawdown : Int
deriving DecidableEq, Repr

/-- Default `PositionLimits()` constructor values. -/
def PositionLimits.default : PositionLimits :=
  ⟨1000000, 500000, 500000, 1000000, 500000⟩

/-- `PositionTracker` state: the per-symbol position map, the per-symbol
trade journal and the limits configuration.  `std::map` lookups become
function application. -/
structure Tracker where
  positions : Nat → Option Position
  trade_history : Nat → List Trade
  limits : PositionLimits

/-- Fresh `PositionTracker(limits)`. -/
def Tracker.mk0 (limits : PositionLimits) : Tracker :=
  ⟨fun _ => none, fun _ => [], limits⟩

/-- `PositionTracker::update_position`: `positions_[symbol]`
default-constructs an absent entry, then the affected leg's
weighted-average price and quantity are updated.  The average uses int64
arithmetic with truncating division; the divisor `long_quantity + quantity`
is computed in `uint32` (it can wrap), and the leg quantity update
`long_quantity += quantity` wraps likewise. -/
def Tracker.update_position (t : Tracker) (symbol : Nat) (price : Int)
    (quantity : Nat) (side : OrderSide) : Tracker :=
  let pos := (t.positions symbol).getD Position.default
  let pos := { pos with symbol := symbol }
  let pos' :=
    match side with
    | OrderSide.buy =>
        if pos.long_quantity = 0 then
          { pos with avg_long_price := price,
                     long_quantity := u32add pos.long_quantity quantity }
        else
          let total_value : Int :=
            pos.avg_long_price * (pos.long_quantity : Int) + price * (quantity : Int)
          { pos with
              avg_long_price := total_value.tdiv ((u32add pos.long_quantity quantity : Nat) : Int),
              long_quantity := u32add pos.long_quantity quantity }
    | OrderSide.sell =>
        if pos.short_quantity = 0 then
          { pos with avg_short_price := price,
                     short_quantity := u32add pos.short_quantity quantity }
        else
          let total_value : Int :=
            pos.avg_short_price * (pos.short_quantity : Int) + price * (quantity : Int)
          { pos with
              avg_short_price := total_value.tdiv ((u32add pos.short_quantity quantity : Nat) : Int),
              short_quantity := u32add pos.short_quantity quantity }
  { t with positions := fun s => if s = symbol then some pos' else t.positions s }

/-- `PositionTracker::calculate_realized_pnl`: reads the current entry of
`positions_`; covering a short on a buy or selling into a long realizes
P&L against the opposite leg's average price. -/
def Tracker.calculate_realized_pnl (t : Tracker) (symbol : Nat) (price : Int)
    (quantity : Nat) (side : OrderSide) : Int :=
  match t.positions symbol with
  | none => 0
  | some position =>
      match side with
      | OrderSide.buy =>
          if position.short_quantity > 0 then
            let cover_qty := min quantity position.short_quantity
            (position.avg_short_price - price) * (cover_qty : Int)
          else 0
      | OrderSide.sell =>
          if position.long_quantity > 0 then
            let sell_qty := min quantity position.long_quantity
            (price - position.avg_long_price) * (sell_qty : Int)
          else 0

/-- `PositionTracker::record_trade`: append to the journal, apply
`update_position`, then add `calculate_realized_pnl` (computed on the
already-updated map) to the entry's `realized_pnl`.  Always returns true. -/
def Tracker.record_trade (t : Tracker) (symbol : Nat) (price : Int)
    (quantity : Nat) (side : OrderSide) (order_id : Nat) : Tracker × Bool :=
  let t1 := { t with trade_history := fun s =>
      if s = symbol then
        t.trade_history symbol ++ [(⟨symbol, price, quantity, side, order_id⟩ : Trade)]
      else t.trade_history s }
  let t2 := t1.update_position symbol price quantity side
  let pnl := t2.calculate_realized_pnl symbol price quantity side
  let t3 := { t2 with positions := fun s =>
      if s = symbol then
        match t2.positions symbol with
        | some p => some { p with realized_pnl := p.realized_pnl + pnl }
        | none => some { Position.default with realized_pnl := pnl }
      else t2.positions s }
  (t3, true)

/-- `PositionTracker::check_position_limits`: absent symbol admits iff
`quantity ≤ max_position_size`; otherwise the side-relevant net bound and
then the total-size bound are checked.  `get_total_position() + quantity`
is `uint32` arithmetic. -/
def Tracker.check_position_limits (t : Tracker) (symbol : Nat)
    (quantity : Nat) (side : OrderSide) : Bool :=
  match t.positions symbol with
  | none => quantity ≤ t.limits.max_position_size
  | some pos =>
      let net := pos.get_net_position
      let sideOk : Bool :=
        match side with
        | OrderSide.buy =>
            if net + (quantity : Int) > (t.limits.max_long_position : Int) then false else true
        | OrderSide.sell =>
            if net - (quantity : Int) < -(t.limits.max_short_position : Int) then false else true
      if sideOk then
        let new_total := u32add pos.get_total_position quantity
        if new_total > t.limits.max_position_size then false else true
      else false

/-- Spec formula for C1 (§4.5 step 2), stated on the *pre-trade* position:
buying against an outstanding short realizes
`(avg_short − price) × min(qty, short_qty)`, selling against an
outstanding long realizes `(price − avg_long) × min(qty, long_qty)`,
otherwise zero. -/
def specRealizedPnl (pre : Option Position) (price : Int) (quantity : Nat)
    (side : OrderSide) : Int :=
  match pre with
  | none => 0
  | some pos =>
      match side with
      | OrderSide.buy =>
          if pos.short_quantity > 0 then
            (pos.avg_short_price - price) * ((min quantity pos.short_quantity : Nat) : Int)
          else 0
      | OrderSide.sell =>
          if pos.long_quantity > 0 then
            (price - pos.avg_long_price) * ((min quantity pos.long_quantity : Nat) : Int)
          else 0

/-- Realized P&L of the tracked position for `symbol`, zero when absent. -/
def Tracker.realizedAt (t : Tracker) (symbol : Nat) : Int :=
  ((t.positions symbol).map Position.realized_pnl).getD 0

end MM

namespace MM

/-- C1: the amount `record_trade` adds to `realized_pnl` equals the spec
formula evaluated on the pre-trade position.  Although the code calls
`update_position` before `calculate_realized_pnl`, a buy only rewrites the
long leg and a sell only the short leg, so the opposite-side figures the
formula reads are still the pre-trade ones. -/
theorem record_trade_realized_pnl_spec (t : Tracker) (symbol : Nat) (price : Int)
    (quantity : Nat) (side : OrderSide) (order_id : Nat) :
    ((t.record_trade symbol price quantity side order_id).1).realizedAt symbol
      = t.realizedAt symbol + specRealizedPnl (t.positions symbol) price quantity side := by
  unfold Tracker.record_trade Tracker.realizedAt
  cases h : t.positions symbol with
  | none =>
      cases side <;>
        simp [Tracker.update_position, Tracker.calculate_realized_pnl, specRealizedPnl, h,
          Position.default]
  | some pos =>
      cases side <;>
        simp only [Tracker.update_position, Tracker.calculate_realized_pnl, specRealizedPnl, h,
          Option.getD_some, Option.map_some, if_true, ite_true, eq_self_iff_true] <;>
        split <;>
        simp_all

end MM

namespace MM

/-- Long-leg quantity of the tracked position, zero when absent. -/
def Tracker.longAt (t : Tracker) (symbol : Nat) : Nat :=
  ((t.positions symbol).map Position.long_quantity).getD 0

/-- Short-leg quantity of the tracked position, zero when absent. -/
def Tracker.shortAt (t : Tracker) (symbol : Nat) : Nat :=
  ((t.positions symbol).map Position.short_quantity).getD 0

/-- Long-leg average price of the tracked position, zero when absent. -/
def Tracker.avgLongAt (t : Tracker) (symbol : Nat) : Int :=
  ((t.positions symbol).map Position.avg_long_price).getD 0

/-- Short-leg average price of the tracked position, zero when absent. -/
def Tracker.avgShortAt (t : Tracker) (symbol : Nat) : Int :=
  ((t.positions symbol).map Position.avg_short_price).getD 0

theorem tdiv_mul_bounds {T d : Int} (hT : 0 ≤ T) (hd : 0 < d) :
    T.tdiv d * d ≤ T ∧ T < T.tdiv d * d + d := by
  rw [Int.tdiv_eq_ediv hT (le_of_lt hd)]
  have he := Int.ediv_add_emod T d
  have h1 := Int.emod_nonneg T (ne_of_gt hd)
  have h2 := Int.emod_lt_of_pos T hd
  constructor <;> nlinarith [mul_comm (T / d) d]

/-- C6 counterexample: with prior long leg `(Q, P) = (1000, $100.00)` a buy
of `q = 500` at `p = $100.10` yields `avg_long_new = 1000333` ticks, and
`1000333 × 1500 = 1500499500 ≠ 1500500000 = P×Q + p×q`: the truncating
integer division drops the remainder, so the claimed exact integer
equality fails. -/
theorem weighted_average_not_exact :
    ((((Tracker.mk0 PositionLimits.default).record_trade 1 1000000 1000
        OrderSide.buy 1).1.record_trade 1 1001000 500 OrderSide.buy 2).1.avgLongAt 1)
        * (1000 + 500)
      ≠ 1000000 * 1000 + 1001000 * 500 := by decide

/-- C6 (amended): with prior long leg `(Q, P)`, `Q > 0`, after a buy of `q`
at `p` the new leg quantity is `Q + q` and the new average satisfies the
truncated-division bounds `avg_new × (Q+q) ≤ P×Q + p×q < avg_new × (Q+q) +
(Q+q)` (exact equality only when `Q+q` divides); symmetrically for the
short leg on a sell. -/
theorem weighted_average_update_bounds (t : Tracker) (symbol : Nat) (price : Int)
    (quantity : Nat) (order_id : Nat) (pos : Position)
    (h : t.positions symbol = some pos) (hp : 0 ≤ price) :
    (0 < pos.long_quantity → pos.long_quantity + quantity < U32 → 0 ≤ pos.avg_long_price →
      (let t' := (t.record_trade symbol price quantity OrderSide.buy order_id).1
       t'.longAt symbol = pos.long_quantity + quantity ∧
       t'.avgLongAt symbol * ((pos.long_quantity + quantity : Nat) : Int)
          ≤ pos.avg_long_price * (pos.long_quantity : Int) + price * (quantity : Int) ∧
       pos.avg_long_price * (pos.long_quantity : Int) + price * (quantity : Int)
          < t'.avgLongAt symbol * ((pos.long_quantity + quantity : Nat) : Int)
            + ((pos.long_quantity + quantity : Nat) : Int))) ∧
    (0 < pos.short_quantity → pos.short_quantity + quantity < U32 → 0 ≤ pos.avg_short_price →
      (let t' := (t.record_trade symbol price quantity OrderSide.sell order_id).1
       t'.shortAt symbol = pos.short_quantity + quantity ∧
       t'.avgShortAt symbol * ((pos.short_quantity + quantity : Nat) : Int)
          ≤ pos.avg_short_price * (pos.short_quantity : Int) + price * (quantity : Int) ∧
       pos.avg_short_price * (pos.short_quantity : Int) + price * (quantity : Int)
          < t'.avgShortAt symbol * ((pos.short_quantity + quantity : Nat) : Int)
            + ((pos.short_quantity + quantity : Nat) : Int))) := by
  constructor
  · intro hQ hbound hP
    have hQ0 : ¬ pos.long_quantity = 0 := by omega
    have hu : u32add pos.long_quantity quantity = pos.long_quantity + quantity :=
      u32add_eq hbound
    have hT : (0 : Int) ≤ pos.avg_long_price * (pos.long_quantity : Int)
        + price * (quantity : Int) := by positivity
    have hd : (0 : Int) < ((pos.long_quantity + quantity : Nat) : Int) := by
      exact_mod_cast Nat.lt_of_lt_of_le hQ (Nat.le_add_right _ _)
    have hb := tdiv_mul_bounds hT hd
    simp only [Tracker.record_trade, Tracker.update_position, Tracker.calculate_realized_pnl,
      Tracker.longAt, Tracker.avgLongAt, h, Option.getD_some, hQ0, if_false,
      ite_true, if_pos rfl, hu, Option.map_some, Option.getD_some]
    refine ⟨rfl, ?_, ?_⟩
    · simpa using hb.1
    · simpa using hb.2
  · intro hQ hbound hP
    have hQ0 : ¬ pos.short_quantity = 0 := by omega
    have hu : u32add pos.short_quantity quantity = pos.short_quantity + quantity :=
      u32add_eq hbound
    have hT : (0 : Int) ≤ pos.avg_short_price * (pos.short_quantity : Int)
        + price * (quantity : Int) := by positivity
    have hd : (0 : Int) < ((pos.short_quantity + quantity : Nat) : Int) := by
      exact_mod_cast Nat.lt_of_lt_of_le hQ (Nat.le_add_right _ _)
    have hb := tdiv_mul_bounds hT hd
    simp only [Tracker.record_trade, Tracker.update_position, Tracker.calculate_realized_pnl,
      Tracker.shortAt, Tracker.avgShortAt, h, Option.getD_some, hQ0, if_false,
      ite_true, if_pos rfl, Option.map_some, Option.getD_some, hu]
    refine ⟨rfl, ?_, ?_⟩
    · simpa using hb.1
    · simpa using hb.2

end MM

namespace MM

/-- Prior long leg `(Q, P) = (1000, 1000000)` used by the C6 witness. -/
def c6Pos : Position := ⟨1, 1000, 0, 1000000, 0, 0, 0⟩

/-- A tracker holding `c6Pos` for symbol 1. -/
def c6Tracker : Tracker :=
  ⟨fun s => if s = 1 then some c6Pos else none, fun _ => [], PositionLimits.default⟩

/-- C6 witness: the amended truncated-division bounds instantiated at the
concrete buy of 500 at 1001000 ticks against a long of 1000 at 1000000. -/
theorem weighted_average_update_bounds_witness :
    (c6Tracker.record_trade 1 1001000 500 OrderSide.buy 7).1.longAt 1 = 1500 ∧
    (c6Tracker.record_trade 1 1001000 500 OrderSide.buy 7).1.avgLongAt 1 * ((1500 : Nat) : Int)
        ≤ 1000000 * 1000 + 1001000 * 500 ∧
    (1000000 * 1000 + 1001000 * 500 : Int)
        < (c6Tracker.record_trade 1 1001000 500 OrderSide.buy 7).1.avgLongAt 1
            * ((1500 : Nat) : Int) + ((1500 : Nat) : Int) :=
  (weighted_average_update_bounds c6Tracker 1 1001000 500 7 c6Pos (by decide) (by decide)).1
    (by decide) (by decide) (by decide)

/-- Spec predicate for C7 (§4.5): admission requires, for existing
positions, that the hypothetical post-trade net position lie within the
full closed interval `[−max_short_position, max_long_position]` and that
`long_qty + short_qty + qty ≤ max_position_size`. -/
def specCheckLimits (t : Tracker) (symbol : Nat) (quantity : Nat) (side : OrderSide) : Bool :=
  match t.positions symbol with
  | none => decide (quantity ≤ t.limits.max_position_size)
  | some pos =>
      let net' : Int :=
        match side with
        | OrderSide.buy => pos.get_net_position + (quantity : Int)
        | OrderSide.sell => pos.get_net_position - (quantity : Int)
      decide (-((t.limits.max_short_position : Nat) : Int) ≤ net') &&
        decide (net' ≤ ((t.limits.max_long_position : Nat) : Int)) &&
        decide (pos.long_quantity + pos.short_quantity + quantity ≤ t.limits.max_position_size)

/-- C7 counterexample: with limits `(max_position_size, max_long,
max_short) = (10000, 10000, 500)` and a reachable position short 1000
(net −1000, already beyond the short bound), a buy of 10 is admitted by
the code (`net + 10 = −990 ≤ max_long`, total `1010 ≤ 10000`) although the
claimed interval check rejects it (`−990 < −500`): the code checks only
the side-relevant bound. -/
theorem check_position_limits_counterexample :
    (((Tracker.mk0 ⟨10000, 10000, 500, 0, 0⟩).record_trade 1 100 1000
        OrderSide.sell 1).1.check_position_limits 1 10 OrderSide.buy = true) ∧
    specCheckLimits ((Tracker.mk0 ⟨10000, 10000, 500, 0, 0⟩).record_trade 1 100 1000
        OrderSide.sell 1).1 1 10 OrderSide.buy = false := by decide

/-- C7 (amended): `check_position_limits` admits a new symbol iff
`qty ≤ max_position_size`; for an existing position it admits iff the
*side-relevant* net bound holds (buy: `net + qty ≤ max_long_position`;
sell: `−max_short_position ≤ net − qty`) and
`long_qty + short_qty + qty ≤ max_position_size`; the opposite bound is
not checked. -/
theorem check_position_limits_spec (t : Tracker) (symbol quantity : Nat) (side : OrderSide) :
    (t.positions symbol = none →
      (t.check_position_limits symbol quantity side = true ↔
        quantity ≤ t.limits.max_position_size)) ∧
    (∀ pos, t.positions symbol = some pos →
      pos.long_quantity + pos.short_quantity + quantity < U32 →
      (t.check_position_limits symbol quantity side = true ↔
        ((match side with
          | OrderSide.buy =>
              pos.get_net_position + (quantity : Int) ≤ ((t.limits.max_long_position : Nat) : Int)
          | OrderSide.sell =>
              -((t.limits.max_short_position : Nat) : Int) ≤ pos.get_net_position - (quantity : Int)) ∧
         pos.long_quantity + pos.short_quantity + quantity ≤ t.limits.max_position_size))) := by
  constructor
  · intro h
    simp [Tracker.check_position_limits, h]
  · intro pos h hbound
    have h1 : u32add pos.long_quantity pos.short_quantity
        = pos.long_quantity + pos.short_quantity := u32add_eq (by omega)
    have h2 : u32add (pos.long_quantity + pos.short_quantity) quantity
        = pos.long_quantity + pos.short_quantity + quantity := u32add_eq (by omega)
    cases side <;>
      simp [Tracker.check_position_limits, h, Position.get_total_position, h1, h2]

end MM

namespace MM

/-- Position with short leg 1000 at average 100 ticks, used by the C7 witness. -/
def c7Pos : Position := ⟨1, 0, 1000, 0, 100, 0, 0⟩

/-- A tracker holding `c7Pos` for symbol 1 under limits `(10000, 10000, 500)`. -/
def c7Tracker : Tracker :=
  ⟨fun s => if s = 1 then some c7Pos else none, fun _ => [], ⟨10000, 10000, 500, 0, 0⟩⟩

/-- C7 witness: the amended admission rule instantiated at a fresh symbol
and at a sell against the concrete short position. -/
theorem check_position_limits_spec_witness :
    (c7Tracker.check_position_limits 2 7 OrderSide.buy = true ↔ 7 ≤ 10000) ∧
    (c7Tracker.check_position_limits 1 10 OrderSide.sell = true ↔
      (-((500 : Nat) : Int) ≤ c7Pos.get_net_position - ((10 : Nat) : Int) ∧
       c7Pos.long_quantity + c7Pos.short_quantity + 10 ≤ 10000)) :=
  ⟨(check_position_limits_spec c7Tracker 2 7 OrderSide.buy).1 (by decide),
   (check_position_limits_spec c7Tracker 1 10 OrderSide.sell).2 c7Pos (by decide) (by decide)⟩

/-! ## Object pool (`memory_pool.hpp`) -/

/-- A pool handle: the C++ `T*` into chunk storage, modelled as a (chunk
index, slot index within that chunk) pair. -/
structure Handle where
  chunk : Nat
  slot : Nat
deriving DecidableEq, Repr

/-- `MemoryPool` state.  `chunks_` keeps each chunk's size (record contents
are irrelevant to the claims); `free_list_` is the `std::stack` with its
top at the list head. -/
structure PoolState where
  chunks : List Nat
  free_list : List Handle
  capacity : Nat
  allocated_count : Nat
  peak_usage : Nat
deriving DecidableEq, Repr

/-- `MemoryPool::allocate_chunk`: append a chunk and add its size to
`capacity_`. -/
def PoolState.allocate_chunk (p : PoolState) (size : Nat) : PoolState :=
  { p with chunks := p.chunks ++ [size], capacity := p.capacity + size }

/-- `MemoryPool(initial_capacity)`: the member initializer sets
`capacity_ = initial_capacity`, then the constructor body's
`allocate_chunk(initial_capacity)` adds the same amount again. -/
def PoolState.create (initial_capacity : Nat) : PoolState :=
  (PoolState.mk [] [] initial_capacity 0 0).allocate_chunk initial_capacity

/-- `MemoryPool::allocate`: pop the free list if non-empty; otherwise grow
(by doubling) only when `allocated_count_ >= capacity_`, then hand out slot
`allocated_count_++` of the *last* chunk and update `peak_usage_`. -/
def PoolState.allocate (p : PoolState) : PoolState × Handle :=
  match p.free_list with
  | h :: rest => ({ p with free_list := rest }, h)
  | [] =>
      let p1 := if p.allocated_count ≥ p.capacity then p.allocate_chunk (p.capacity * 2) else p
      let h : Handle := ⟨p1.chunks.length - 1, p1.allocated_count⟩
      ({ p1 with allocated_count := p1.allocated_count + 1,
                 peak_usage := max p1.peak_usage (p1.allocated_count + 1) }, h)

/-- `MemoryPool::deallocate`: push the handle; nothing else changes. -/
def PoolState.deallocate (p : PoolState) (h : Handle) : PoolState :=
  { p with free_list := h :: p.free_list }

/-- A handle refers to a valid slot inside some allocated chunk. -/
def PoolState.handleOk (p : PoolState) (h : Handle) : Bool :=
  decide (h.chunk < p.chunks.length) && decide (h.slot < p.chunks.getD h.chunk 0)

/-- C5: the constructor counts the initial chunk's capacity twice
(`capacity_ = 2` for `MemoryPool(1)` with a single chunk of size 1), so
with an empty free list the growth test `allocated_count_ >= capacity_`
fails when the only chunk is exhausted: the second `allocate()` returns
slot 1 of the size-1 chunk — a handle outside every allocated chunk,
refuting the claimed safety property.  The first allocation is in
bounds. -/
theorem pool_allocate_out_of_bounds :
    (PoolState.create 1).capacity = 2 ∧
    (PoolState.create 1).chunks = [1] ∧
    (PoolState.create 1).allocate.2 = ⟨0, 0⟩ ∧
    (PoolState.create 1).handleOk (PoolState.create 1).allocate.2 = true ∧
    (PoolState.create 1).allocate.1.allocate.2 = ⟨0, 1⟩ ∧
    (PoolState.create 1).allocate.1.allocate.1.handleOk
        (PoolState.create 1).allocate.1.allocate.2 = false := by decide

end MM

namespace MM

/-! ## Order book (`order_book.hpp` / `order_book.cpp`)

The two `std::map` price indexes become lists of `PriceLevel` records kept
in iteration order (bids descending, asks ascending); the order table
becomes an id-sorted association list.  The C++ `Order::level` back-pointer
is modelled as the key `(price, side)` of the level it points to — within
one book an index holds at most one level per price, so under the §3
pointer-graph invariant the key determines the pointee.  Pool usage inside
the book is abstracted to allocation/free counters (`PoolUse`); the pool's
chunk internals are the separate `PoolState` model above. -/

/-- `order_book.hpp` `PriceLevel` (timestamp omitted). -/
structure PriceLevel where
  price : Int
  total_quantity : Nat
  order_count : Nat
deriving DecidableEq, Repr

/-- `order_book.hpp` `Order` (timestamp omitted; `level` is the pointed-to
level's key). -/
structure Order where
  id : Nat
  symbol : Nat
  price : Int
  quantity : Nat
  filled_quantity : Nat
  side : OrderSide
  ty : OrderType
  status : OrderStatus
  level : Option (Int × OrderSide)
deriving DecidableEq, Repr

/-- Usage counters of one `MemoryPool` as seen from the book: `allocated`
mirrors `allocated_count_`, `freed` the free-list size. -/
structure PoolUse where
  allocated : Nat
  freed : Nat
deriving DecidableEq, Repr

/-- Pool `allocate()` effect on usage: pop the free list when non-empty,
else consume a fresh slot. -/
def PoolUse.alloc (p : PoolUse) : PoolUse :=
  if p.freed > 0 then { p with freed := p.freed - 1 }
  else { p with allocated := p.allocated + 1 }

/-- Pool `deallocate()` effect on usage. -/
def PoolUse.free (p : PoolUse) : PoolUse :=
  { p with freed := p.freed + 1 }

/-- `k` successive `deallocate()` calls. -/
def PoolUse.freeN (p : PoolUse) (k : Nat) : PoolUse :=
  { p with freed := p.freed + k }

/-- The `OrderBook` state. -/
structure Book where
  symbol : Nat
  bids : List PriceLevel
  asks : List PriceLevel
  orders : List (Nat × Order)
  order_pool : PoolUse
  level_pool : PoolUse
deriving DecidableEq, Repr

/-- `OrderBook(symbol)` constructor: empty indexes and table. -/
def Book.create (symbol : Nat) : Book :=
  ⟨symbol, [], [], [], ⟨0, 0⟩, ⟨0, 0⟩⟩

/-- `orders_.find(id)`. -/
def lookupOrder (os : List (Nat × Order)) (oid : Nat) : Option Order :=
  match os with
  | [] => none
  | (i, o) :: rest => if i = oid then some o else lookupOrder rest oid

/-- In-place update of the record at `oid` (C++ mutation through the
stored pointer). -/
def setOrder (os : List (Nat × Order)) (oid : Nat) (o' : Order) : List (Nat × Order) :=
  os.map fun e => if e.1 = oid then (e.1, o') else e

/-- `orders_[id] = order` for a fresh id: sorted insertion. -/
def insertOrder (os : List (Nat × Order)) (oid : Nat) (o : Order) : List (Nat × Order) :=
  match os with
  | [] => [(oid, o)]
  | (i, x) :: rest =>
      if oid < i then (oid, o) :: (i, x) :: rest else (i, x) :: insertOrder rest oid o

/-- `orders_.erase(id)`. -/
def eraseOrder (os : List (Nat × Order)) (oid : Nat) : List (Nat × Order) :=
  os.filter fun e => decide (¬ e.1 = oid)

/-- Exact-price lookup in one side's level list. -/
def findLevel (lvs : List PriceLevel) (price : Int) : Option PriceLevel :=
  lvs.find? fun l => decide (l.price = price)

/-- In-place update of the level stored at `price` (C++ mutation through
the pointer). -/
def setLevel (lvs : List PriceLevel) (price : Int) (f : PriceLevel → PriceLevel) :
    List PriceLevel :=
  lvs.map fun l => if l.price = price then f l else l

/-- `bids_.erase(price)` / `asks_.erase(price)`. -/
def eraseLevel (lvs : List PriceLevel) (price : Int) : List PriceLevel :=
  lvs.filter fun l => decide (¬ l.price = price)

/-- Sorted insertion for the ask index (`std::less`, ascending). -/
def insertLevelAsc (lvs : List PriceLevel) (lv : PriceLevel) : List PriceLevel :=
  match lvs with
  | [] => [lv]
  | x :: rest => if lv.price < x.price then lv :: x :: rest else x :: insertLevelAsc rest lv

/-- Sorted insertion for the bid index (`std::greater`, descending). -/
def insertLevelDesc (lvs : List PriceLevel) (lv : PriceLevel) : List PriceLevel :=
  match lvs with
  | [] => [lv]
  | x :: rest => if lv.price > x.price then lv :: x :: rest else x :: insertLevelDesc rest lv

/-- The index a side name refers to: `BUY → bids_`, `SELL → asks_`. -/
def Book.sideLevels (b : Book) (side : OrderSide) : List PriceLevel :=
  match side with
  | OrderSide.buy => b.bids
  | OrderSide.sell => b.asks

/-- Replace one side's index. -/
def Book.setSideLevels (b : Book) (side : OrderSide) (lvs : List PriceLevel) : Book :=
  match side with
  | OrderSide.buy => { b with bids := lvs }
  | OrderSide.sell => { b with asks := lvs }

/-- `OrderBook::get_or_create_level`: reuse the level at `price` or
allocate a fresh zeroed one from the level pool and insert it. -/
def Book.get_or_create_level (b : Book) (price : Int) (side : OrderSide) : Book :=
  match findLevel (b.sideLevels side) price with
  | some _ => b
  | none =>
      let b1 := { b with level_pool := b.level_pool.alloc }
      let lv : PriceLevel := ⟨price, 0, 0⟩
      match side with
      | OrderSide.buy => { b1 with bids := insertLevelDesc b1.bids lv }
      | OrderSide.sell => { b1 with asks := insertLevelAsc b1.asks lv }

/-- `OrderBook::update_level_stats` applied through a level key (uint32
arithmetic on the aggregates). -/
def Book.update_level_stats (b : Book) (price : Int) (side : OrderSide)
    (delta : Nat) (addOrder : Bool) : Book :=
  let f : PriceLevel → PriceLevel := fun l =>
    if addOrder then
      { l with total_quantity := u32add l.total_quantity delta,
               order_count := u32add l.order_count 1 }
    else
      { l with total_quantity := u32sub l.total_quantity delta,
               order_count := u32sub l.order_count 1 }
  b.setSideLevels side (setLevel (b.sideLevels side) price f)

/-- `OrderBook::remove_empty_level`: erase (and return to the pool) the
level at `price` iff it exists and its aggregate is zero. -/
def Book.remove_empty_level (b : Book) (price : Int) (side : OrderSide) : Book :=
  match findLevel (b.sideLevels side) price with
  | some lv =>
      if lv.total_quantity = 0 then
        let b1 := b.setSideLevels side (eraseLevel (b.sideLevels side) price)
        { b1 with level_pool := b1.level_pool.free }
      else b
  | none => b

/-- `OrderBook::remove_order_from_level`: if the order still points at a
level, subtract its remaining quantity from that level (decrementing the
order count), drop the level if emptied — the code passes `order->side`
here — and null the back-pointer. -/
def Book.remove_order_from_level (b : Book) (o : Order) : Book × Order :=
  match o.level with
  | none => (b, o)
  | some (price, side) =>
      let b1 := b.update_level_stats price side (u32sub o.quantity o.filled_quantity) false
      let b2 := b1.remove_empty_level price o.side
      (b2, { o with level := none })

/-- `OrderBook::add_order`. -/
def Book.add_order (b : Book) (oid : Nat) (price : Int) (qty : Nat)
    (side : OrderSide) (ty : OrderType) : Book × Bool :=
  if (lookupOrder b.orders oid).isSome then (b, false)
  else
    let b1 := { b with order_pool := b.order_pool.alloc }
    let b2 := b1.get_or_create_level price side
    let o : Order := ⟨oid, b.symbol, price, qty, 0, side, ty, OrderStatus.active,
      some (price, side)⟩
    let b3 := { b2 with orders := insertOrder b2.orders oid o }
    let b4 := b3.update_level_stats price side qty true
    (b4, true)

/-- `OrderBook::cancel_order`. -/
def Book.cancel_order (b : Book) (oid : Nat) (qty : Nat) : Book × Bool :=
  match lookupOrder b.orders oid with
  | none => (b, false)
  | some o =>
      if ¬ o.status = OrderStatus.active then (b, false)
      else
        let remaining := u32sub o.quantity o.filled_quantity
        let cancel_qty := if qty = 0 then remaining else qty
        let cancel_qty := if cancel_qty > remaining then remaining else cancel_qty
        let o1 := { o with filled_quantity := u32add o.filled_quantity cancel_qty }
        let o1 := if o1.filled_quantity ≥ o1.quantity then
            { o1 with status := OrderStatus.filled } else o1
        let b1 := { b with orders := setOrder b.orders oid o1 }
        let b2 :=
          match o1.level with
          | some (price, side) => b1.update_level_stats price side cancel_qty false
          | none => b1
        if o1.status = OrderStatus.filled then
          let (b3, _) := b2.remove_order_from_level o1
          let b4 := { b3 with orders := eraseOrder b3.orders oid,
                              order_pool := b3.order_pool.free }
          (b4, true)
        else (b2, true)

/-- `OrderBook::modify_order`: detach the remaining quantity from the old
level (without ever calling `remove_empty_level` on it), retarget the
order, and attach `new_quantity − filled_quantity` to the (possibly fresh)
level at the new price. -/
def Book.modify_order (b : Book) (oid : Nat) (new_price : Int) (new_qty : Nat) :
    Book × Bool :=
  match lookupOrder b.orders oid with
  | none => (b, false)
  | some o =>
      if ¬ o.status = OrderStatus.active then (b, false)
      else
        let old_remaining := u32sub o.quantity o.filled_quantity
        let b1 :=
          match o.level with
          | some (price, side) => b.update_level_stats price side old_remaining false
          | none => b
        let o1 := { o with price := new_price, quantity := new_qty }
        let b2 := b1.get_or_create_level new_price o1.side
        let o2 := { o1 with level := some (new_price, o1.side) }
        let b3 := { b2 with orders := setOrder b2.orders oid o2 }
        let b4 := b3.update_level_stats new_price o1.side (u32sub new_qty o1.filled_quantity) true
        (b4, true)

/-- The side whose resting orders a trade consumes: a buy aggressor eats
asks, a sell aggressor eats bids. -/
def victimSide : OrderSide → OrderSide
  | OrderSide.buy => OrderSide.sell
  | OrderSide.sell => OrderSide.buy

/-- Level-price acceptability for the aggressor's limit: the loop breaks
on `level->price > price` for a buy and `level->price < price` for a
sell. -/
def acceptable (aggressor : OrderSide) (limit lp : Int) : Bool :=
  match aggressor with
  | OrderSide.buy => decide (lp ≤ limit)
  | OrderSide.sell => decide (limit ≤ lp)

/-- Inner loop of `execute_trade` over the whole `orders_` table: resident
active orders at the level key absorb the consumed quantity in table
order; a fully filled order is marked filled and detached.  The walk never
erases table entries.  Returns the rebuilt table, the undistributed rest
of `execute_qty`, the number of orders returned to the pool, and the sum
of the per-removal level-stat subtractions `quantity − filled_quantity`
performed by `remove_order_from_level` (each is `0` whenever quantities
are genuine uint32 values, because removal happens exactly when
`filled_quantity` reaches `quantity`). -/
def fillOrders (os : List (Nat × Order)) (key : Int × OrderSide) (exec : Nat) :
    List (Nat × Order) × Nat × Nat × Nat :=
  match os with
  | [] => ([], exec, 0, 0)
  | (i, o) :: rest =>
      if o.level = some key ∧ o.status = OrderStatus.active then
        let oe := min exec (u32sub o.quantity o.filled_quantity)
        let o1 := { o with filled_quantity := u32add o.filled_quantity oe }
        let exec1 := u32sub exec oe
        if o1.filled_quantity ≥ o1.quantity then
          let d := u32sub o1.quantity o1.filled_quantity
          let o2 := { o1 with status := OrderStatus.filled, level := none }
          if exec1 = 0 then ((i, o2) :: rest, 0, 1, d)
          else
            let r := fillOrders rest key exec1
            ((i, o2) :: r.1, r.2.1, r.2.2.1 + 1, d + r.2.2.2)
        else
          if exec1 = 0 then ((i, o1) :: rest, 0, 0, 0)
          else
            let r := fillOrders rest key exec1
            ((i, o1) :: r.1, r.2.1, r.2.2.1, r.2.2.2)
      else
        let r := fillOrders rest key exec
        ((i, o) :: r.1, r.2.1, r.2.2.1, r.2.2.2)

/-- One iteration of the `execute_trade` level loop on an acceptable level
`lv` (the iterator's current record): decrement the aggregate by
`execute_qty = min(remaining, total_quantity)`, distribute it over the
resident orders, then erase the level when its aggregate reached zero.
Whenever the level is fully consumed and some resident fully fills, the
SOURCE first erases the level's map node and pool-frees the level inside
`remove_empty_level` (reached from `remove_order_from_level` during the
inner walk) and afterwards still executes `it = asks_.erase(it)` on the
now-invalidated iterator plus `level_pool_.deallocate(level)` a second
time: an invalidated-iterator erase and a double free — undefined
behaviour in C++.  The model repairs this path into a single by-price
erase while charging the free counter for both `deallocate` calls, so the
double free stays visible in the pool usage; `Book.execLevelDoubleFree`
below marks exactly the executions where the source's behaviour is
undefined.  Conclusions about post-states on which that predicate fires
are therefore statements about this repaired reading, not about the C++
program. -/
def Book.execLevel (b : Book) (aggressor : OrderSide) (lv : PriceLevel) (remaining : Nat) :
    Book × Nat :=
  let vs := victimSide aggressor
  let exec := min remaining lv.total_quantity
  let r := fillOrders b.orders (lv.price, vs) exec
  let total2 := u32sub (u32sub lv.total_quantity exec) r.2.2.2
  let count2 := u32sub lv.order_count r.2.2.1
  let b1 := { b with orders := r.1, order_pool := b.order_pool.freeN r.2.2.1 }
  let lvs1 := setLevel (b1.sideLevels vs) lv.price
    (fun l => { l with total_quantity := total2, order_count := count2 })
  if total2 = 0 then
    let b2 := b1.setSideLevels vs (eraseLevel lvs1 lv.price)
    let deallocs := if r.2.2.1 > 0 then 2 else 1
    ({ b2 with level_pool := b2.level_pool.freeN deallocs }, u32sub remaining exec)
  else
    (b1.setSideLevels vs lvs1, u32sub remaining exec)

/-- The `execute_trade` level loop.  It recurses over the index snapshot
taken at entry; this is faithful because each iteration only touches the
level at its own price and prices in one index are distinct, so later
iterations read records no earlier iteration has modified. -/
def Book.sweep (b : Book) (aggressor : OrderSide) (limit : Int)
    (lvs : List PriceLevel) (remaining : Nat) : Book × Nat :=
  match lvs with
  | [] => (b, remaining)
  | lv :: rest =>
      if remaining = 0 then (b, remaining)
      else if acceptable aggressor limit lv.price then
        let r := b.execLevel aggressor lv remaining
        r.1.sweep aggressor limit rest r.2
      else (b, remaining)

/-- `OrderBook::execute_trade`: empty victim index returns false with no
change; otherwise sweep and report whether anything was consumed. -/
def Book.execute_trade (b : Book) (price : Int) (quantity : Nat) (side : OrderSide) :
    Book × Bool :=
  match side with
  | OrderSide.buy =>
      if b.asks.isEmpty then (b, false)
      else
        let r := b.sweep OrderSide.buy price b.asks quantity
        (r.1, decide (r.2 < quantity))
  | OrderSide.sell =>
      if b.bids.isEmpty then (b, false)
      else
        let r := b.sweep OrderSide.sell price b.bids quantity
        (r.1, decide (r.2 < quantity))

end MM

namespace MM

/-! ## Book registry (`OrderBookManager`) -/

/-- The registry state: `order_books_`, a symbol-sorted map. -/
structure Manager where
  books : List (Nat × Book)
deriving DecidableEq, Repr

/-- `OrderBookManager()` constructor. -/
def Manager.create : Manager := ⟨[]⟩

/-- `order_books_.find(symbol)`. -/
def lookupBook (bs : List (Nat × Book)) (s : Nat) : Option Book :=
  match bs with
  | [] => none
  | (i, b) :: rest => if i = s then some b else lookupBook rest s

/-- `order_books_[symbol] = …` for a fresh symbol: sorted insertion. -/
def insertBook (bs : List (Nat × Book)) (s : Nat) (b : Book) : List (Nat × Book) :=
  match bs with
  | [] => [(s, b)]
  | (i, x) :: rest =>
      if s < i then (s, b) :: (i, x) :: rest else (i, x) :: insertBook rest s b

/-- Write back a book mutated through its pointer. -/
def setBook (bs : List (Nat × Book)) (s : Nat) (b : Book) : List (Nat × Book) :=
  bs.map fun e => if e.1 = s then (e.1, b) else e

/-- `OrderBookManager::get_order_book` (non-const overload): return the
existing book or create and register a fresh one.  All the manager's
keyed mutating operations call this overload — including `cancel_order`,
whose `const OrderBook *` local still binds the creating overload because
the member function itself is non-const. -/
def Manager.get_order_book (m : Manager) (s : Nat) : Manager × Book :=
  match lookupBook m.books s with
  | some b => (m, b)
  | none =>
      let b := Book.create s
      (⟨insertBook m.books s b⟩, b)

/-- `OrderBookManager::add_order`. -/
def Manager.add_order (m : Manager) (s oid : Nat) (price : Int) (qty : Nat)
    (side : OrderSide) (ty : OrderType) : Manager × Bool :=
  let r := m.get_order_book s
  let r2 := r.2.add_order oid price qty side ty
  (⟨setBook r.1.books s r2.1⟩, r2.2)

/-- `OrderBookManager::cancel_order`. -/
def Manager.cancel_order (m : Manager) (s oid qty : Nat) : Manager × Bool :=
  let r := m.get_order_book s
  let r2 := r.2.cancel_order oid qty
  (⟨setBook r.1.books s r2.1⟩, r2.2)

/-- `OrderBookManager::modify_order`. -/
def Manager.modify_order (m : Manager) (s oid : Nat) (new_price : Int) (new_qty : Nat) :
    Manager × Bool :=
  let r := m.get_order_book s
  let r2 := r.2.modify_order oid new_price new_qty
  (⟨setBook r.1.books s r2.1⟩, r2.2)

/-- `OrderBookManager::execute_trade`. -/
def Manager.execute_trade (m : Manager) (s : Nat) (price : Int) (qty : Nat)
    (side : OrderSide) : Manager × Bool :=
  let r := m.get_order_book s
  let r2 := r.2.execute_trade price qty side
  (⟨setBook r.1.books s r2.1⟩, r2.2)

/-- `OrderBookManager::get_active_symbols`. -/
def Manager.get_active_symbols (m : Manager) : List Nat :=
  m.books.map Prod.fst

/-- `OrderBookManager::order_book_count`. -/
def Manager.order_book_count (m : Manager) : Nat :=
  m.books.length

theorem insertBook_length (bs : List (Nat × Book)) (s : Nat) (b : Book) :
    (insertBook bs s b).length = bs.length + 1 := by
  induction bs with
  | nil => rfl
  | cons x rest ih =>
      obtain ⟨i, y⟩ := x
      by_cases h : s < i <;> simp [insertBook, h, ih]

theorem insertBook_mem_fst (bs : List (Nat × Book)) (s : Nat) (b : Book) :
    s ∈ (insertBook bs s b).map Prod.fst := by
  induction bs with
  | nil => simp [insertBook]
  | cons x rest ih =>
      obtain ⟨i, y⟩ := x
      by_cases h : s < i <;> simp [insertBook, h, ih]

theorem setBook_map_fst (bs : List (Nat × Book)) (s : Nat) (b : Book) :
    (setBook bs s b).map Prod.fst = bs.map Prod.fst := by
  induction bs with
  | nil => rfl
  | cons x rest ih =>
      obtain ⟨i, y⟩ := x
      by_cases h : i = s <;> simp [setBook, h, ih] <;>
        simpa [setBook] using ih

theorem setBook_length (bs : List (Nat × Book)) (s : Nat) (b : Book) :
    (setBook bs s b).length = bs.length := by
  simp [setBook]

/-- C10: a keyed registry operation for a never-referenced symbol returns
false — `cancel_order` and `modify_order` find no such order in the fresh
empty book, `execute_trade` finds an empty victim index — yet registers an
order book for the symbol as a side effect, so the symbol appears in
`get_active_symbols()` and `order_book_count()` grows by one. -/
theorem manager_keyed_ops_create_book (m : Manager) (s oid : Nat) (price : Int)
    (qty : Nat) (side : OrderSide) (h : lookupBook m.books s = none) :
    ((m.cancel_order s oid qty).2 = false ∧
      s ∈ (m.cancel_order s oid qty).1.get_active_symbols ∧
      (m.cancel_order s oid qty).1.order_book_count = m.order_book_count + 1) ∧
    ((m.modify_order s oid price qty).2 = false ∧
      s ∈ (m.modify_order s oid price qty).1.get_active_symbols ∧
      (m.modify_order s oid price qty).1.order_book_count = m.order_book_count + 1) ∧
    ((m.execute_trade s price qty side).2 = false ∧
      s ∈ (m.execute_trade s price qty side).1.get_active_symbols ∧
      (m.execute_trade s price qty side).1.order_book_count = m.order_book_count + 1) := by
  have hs : ∀ b0 b' : Book,
      s ∈ (Manager.mk (setBook (insertBook m.books s b0) s b')).get_active_symbols := by
    intro b0 b'
    simp only [Manager.get_active_symbols, setBook_map_fst]
    exact insertBook_mem_fst m.books s b0
  have hc : ∀ b0 b' : Book,
      (Manager.mk (setBook (insertBook m.books s b0) s b')).order_book_count
        = m.order_book_count + 1 := by
    intro b0 b'
    simp only [Manager.order_book_count, setBook_length, insertBook_length]
  refine ⟨⟨?_, ?_, ?_⟩, ⟨?_, ?_, ?_⟩, ⟨?_, ?_, ?_⟩⟩ <;>
    cases side <;>
    simp [Manager.cancel_order, Manager.modify_order, Manager.execute_trade,
      Manager.get_order_book, h, Book.cancel_order, Book.modify_order, Book.execute_trade,
      Book.create, lookupOrder, hs, hc]

/-- C10 witness: the three keyed operations on a fresh registry and
symbol 1. -/
theorem manager_keyed_ops_create_book_witness :
    ((Manager.create.cancel_order 1 5 0).2 = false ∧
      1 ∈ (Manager.create.cancel_order 1 5 0).1.get_active_symbols ∧
      (Manager.create.cancel_order 1 5 0).1.order_book_count
        = Manager.create.order_book_count + 1) ∧
    ((Manager.create.modify_order 1 5 1000000 10).2 = false ∧
      1 ∈ (Manager.create.modify_order 1 5 1000000 10).1.get_active_symbols ∧
      (Manager.create.modify_order 1 5 1000000 10).1.order_book_count
        = Manager.create.order_book_count + 1) ∧
    ((Manager.create.execute_trade 1 1000000 10 OrderSide.buy).2 = false ∧
      1 ∈ (Manager.create.execute_trade 1 1000000 10 OrderSide.buy).1.get_active_symbols ∧
      (Manager.create.execute_trade 1 1000000 10 OrderSide.buy).1.order_book_count
        = Manager.create.order_book_count + 1) :=
  manager_keyed_ops_create_book Manager.create 1 5 1000000 10 OrderSide.buy (by decide)

end MM

namespace MM

/-- Aggregate quantity of the level stored at `(side, price)`, zero when
absent. -/
def Book.levelTotalAt (b : Book) (side : OrderSide) (price : Int) : Nat :=
  ((findLevel (b.sideLevels side) price).map PriceLevel.total_quantity).getD 0

/-- Order count of the level stored at `(side, price)`, zero when
absent. -/
def Book.levelCountAt (b : Book) (side : OrderSide) (price : Int) : Nat :=
  ((findLevel (b.sideLevels side) price).map PriceLevel.order_count).getD 0

theorem lookupOrder_insertOrder (os : List (Nat × Order)) (oid : Nat) (o : Order)
    (h : lookupOrder os oid = none) :
    lookupOrder (insertOrder os oid o) oid = some o := by
  induction os with
  | nil => simp [insertOrder, lookupOrder]
  | cons x rest ih =>
      obtain ⟨i, y⟩ := x
      simp only [lookupOrder] at h
      by_cases h2 : i = oid
      · simp [h2] at h
      · simp only [h2, if_false] at h
        by_cases hlt : oid < i
        · simp [insertOrder, hlt, lookupOrder]
        · simp [insertOrder, hlt, lookupOrder, h2, ih h]

theorem findLevel_insertLevelAsc_fresh (lvs : List PriceLevel) (lv : PriceLevel)
    (h : findLevel lvs lv.price = none) :
    findLevel (insertLevelAsc lvs lv) lv.price = some lv := by
  induction lvs with
  | nil => simp [insertLevelAsc, findLevel]
  | cons x rest ih =>
      simp only [findLevel, List.find?] at h
      by_cases hx : x.price = lv.price
      · simp [hx] at h
      · simp only [insertLevelAsc]
        by_cases hlt : lv.price < x.price
        · simp [hlt, findLevel, List.find?]
        · simp only [hlt, if_false, findLevel, List.find?, hx, decide_eq_true_eq,
            decide_eq_false hx]
          have h' : findLevel rest lv.price = none := by
            simpa [findLevel, hx] using h
          simpa [findLevel] using ih h'

theorem findLevel_insertLevelDesc_fresh (lvs : List PriceLevel) (lv : PriceLevel)
    (h : findLevel lvs lv.price = none) :
    findLevel (insertLevelDesc lvs lv) lv.price = some lv := by
  induction lvs with
  | nil => simp [insertLevelDesc, findLevel]
  | cons x rest ih =>
      simp only [findLevel, List.find?] at h
      by_cases hx : x.price = lv.price
      · simp [hx] at h
      · simp only [insertLevelDesc]
        by_cases hlt : lv.price > x.price
        · simp [hlt, findLevel, List.find?]
        · simp only [hlt, if_false, findLevel, List.find?, hx, decide_eq_true_eq,
            decide_eq_false hx]
          have h' : findLevel rest lv.price = none := by
            simpa [findLevel, hx] using h
          simpa [findLevel] using ih h'

theorem findLevel_setLevel (lvs : List PriceLevel) (price : Int) (f : PriceLevel → PriceLevel)
    (hf : ∀ l, (f l).price = l.price) :
    findLevel (setLevel lvs price f) price = (findLevel lvs price).map f := by
  induction lvs with
  | nil => simp [setLevel, findLevel]
  | cons x rest ih =>
      by_cases hx : x.price = price
      · simp [setLevel, findLevel, List.find?, hx, hf]
      · simp only [setLevel, findLevel, List.find?] at ih ⊢
        simp [hx, ih, decide_eq_false hx]

/-- After `get_or_create_level` the level at `(side, price)` exists, and
its aggregates are those of the pre-state (zero when it was absent). -/
theorem get_or_create_level_found (b : Book) (price : Int) (side : OrderSide) :
    ∃ lv, findLevel ((b.get_or_create_level price side).sideLevels side) price = some lv ∧
      lv.price = price ∧
      lv.total_quantity = b.levelTotalAt side price ∧
      lv.order_count = b.levelCountAt side price := by
  unfold Book.get_or_create_level
  cases h : findLevel (b.sideLevels side) price with
  | some lv =>
      refine ⟨lv, by simp [h], ?_, ?_, ?_⟩
      · have := List.find?_some (by simpa [findLevel] using h)
        simpa using this
      · simp [Book.levelTotalAt, h]
      · simp [Book.levelCountAt, h]
  | none =>
      cases side with
      | buy =>
          refine ⟨⟨price, 0, 0⟩, ?_, rfl, ?_, ?_⟩
          · have := findLevel_insertLevelDesc_fresh b.bids ⟨price, 0, 0⟩
              (by simpa [Book.sideLevels] using h)
            simpa [Book.sideLevels] using this
          · simp [Book.levelTotalAt, h]
          · simp [Book.levelCountAt, h]
      | sell =>
          refine ⟨⟨price, 0, 0⟩, ?_, rfl, ?_, ?_⟩
          · have := findLevel_insertLevelAsc_fresh b.asks ⟨price, 0, 0⟩
              (by simpa [Book.sideLevels] using h)
            simpa [Book.sideLevels] using this
          · simp [Book.levelTotalAt, h]
          · simp [Book.levelCountAt, h]

end MM

namespace MM

theorem sideLevels_setSideLevels (b : Book) (side : OrderSide) (lvs : List PriceLevel) :
    (b.setSideLevels side lvs).sideLevels side = lvs := by
  cases side <;> rfl

theorem orders_setSideLevels (b : Book) (side : OrderSide) (lvs : List PriceLevel) :
    (b.setSideLevels side lvs).orders = b.orders := by
  cases side <;> rfl

theorem orders_get_or_create_level (b : Book) (price : Int) (side : OrderSide) :
    (b.get_or_create_level price side).orders = b.orders := by
  unfold Book.get_or_create_level
  cases h : findLevel (b.sideLevels side) price <;> cases side <;> simp

theorem symbol_get_or_create_level (b : Book) (price : Int) (side : OrderSide) :
    (b.get_or_create_level price side).symbol = b.symbol := by
  unfold Book.get_or_create_level
  cases h : findLevel (b.sideLevels side) price <;> cases side <;> simp

theorem orders_update_level_stats (b : Book) (price : Int) (side : OrderSide)
    (delta : Nat) (ao : Bool) :
    (b.update_level_stats price side delta ao).orders = b.orders := by
  unfold Book.update_level_stats
  exact orders_setSideLevels ..

theorem levelStats_update_level_stats (b : Book) (price : Int) (side : OrderSide)
    (delta : Nat) (lv : PriceLevel) (h : findLevel (b.sideLevels side) price = some lv) :
    (b.update_level_stats price side delta true).levelTotalAt side price
        = u32add lv.total_quantity delta ∧
    (b.update_level_stats price side delta true).levelCountAt side price
        = u32add lv.order_count 1 := by
  unfold Book.update_level_stats Book.levelTotalAt Book.levelCountAt
  rw [sideLevels_setSideLevels, findLevel_setLevel _ _ _ (by intro l; simp), h]
  simp

/-- C8: `add_order` with a known id returns false and leaves the entire
book state — order table, both indexes, level aggregates and pool usage —
unchanged; with a fresh id it returns true, stores the order with status
`active` and `filled_quantity = 0`, and bumps its level's aggregate by the
order quantity and its order count by one. -/
theorem add_order_spec (b : Book) (oid : Nat) (price : Int) (qty : Nat)
    (side : OrderSide) (ty : OrderType) :
    ((lookupOrder b.orders oid).isSome = true →
      b.add_order oid price qty side ty = (b, false)) ∧
    (lookupOrder b.orders oid = none →
      b.levelTotalAt side price + qty < U32 →
      b.levelCountAt side price + 1 < U32 →
      ((b.add_order oid price qty side ty).2 = true ∧
       lookupOrder (b.add_order oid price qty side ty).1.orders oid
         = some ⟨oid, b.symbol, price, qty, 0, side, ty, OrderStatus.active,
             some (price, side)⟩ ∧
       (b.add_order oid price qty side ty).1.levelTotalAt side price
         = b.levelTotalAt side price + qty ∧
       (b.add_order oid price qty side ty).1.levelCountAt side price
         = b.levelCountAt side price + 1)) := by
  constructor
  · intro h
    unfold Book.add_order
    rw [if_pos h]
  · intro h hqt hct
    have hnone : ¬ (lookupOrder b.orders oid).isSome = true := by
      simp [h]
    set b1 : Book := { b with order_pool := b.order_pool.alloc } with hb1
    have hlv1 : b1.levelTotalAt side price = b.levelTotalAt side price := by
      cases side <;> rfl
    have hlc1 : b1.levelCountAt side price = b.levelCountAt side price := by
      cases side <;> rfl
    obtain ⟨lv, hfind, hlp, hlt, hlc⟩ := get_or_create_level_found b1 price side
    set b2 : Book := b1.get_or_create_level price side with hb2
    have hords : b2.orders = b.orders := by
      rw [hb2, orders_get_or_create_level]
    set o : Order := ⟨oid, b.symbol, price, qty, 0, side, ty, OrderStatus.active,
      some (price, side)⟩ with ho
    set b3 : Book := { b2 with orders := insertOrder b2.orders oid o } with hb3
    have hside3 : b3.sideLevels side = b2.sideLevels side := by
      cases side <;> rfl
    have hstats := levelStats_update_level_stats b3 price side qty lv
      (by rw [hside3]; exact hfind)
    have hres : b.add_order oid price qty side ty
        = (b3.update_level_stats price side qty true, true) := by
      unfold Book.add_order
      rw [if_neg hnone]
    refine ⟨by rw [hres], ?_, ?_, ?_⟩
    · rw [hres]
      have := orders_update_level_stats b3 price side qty true
      rw [this]
      show lookupOrder (insertOrder b2.orders oid o) oid = some o
      exact lookupOrder_insertOrder _ _ _ (by rw [hords]; exact h)
    · rw [hres]
      have h1 := hstats.1
      rw [hlt, hlv1] at h1
      rw [h1, u32add_eq hqt]
    · rw [hres]
      have h2 := hstats.2
      rw [hlc, hlc1] at h2
      rw [h2, u32add_eq hct]

/-- C8 witness: a duplicate add of id 5 is rejected without state change,
and a fresh add of id 6 is stored and aggregated, on a concrete one-order
book. -/
theorem add_order_spec_witness :
    (((Book.create 1).add_order 5 1000000 10 OrderSide.buy OrderType.limit).1.add_order
        5 1000000 7 OrderSide.buy OrderType.limit
      = (((Book.create 1).add_order 5 1000000 10 OrderSide.buy OrderType.limit).1, false)) ∧
    ((((Book.create 1).add_order 5 1000000 10 OrderSide.buy OrderType.limit).1.add_order
        6 1000000 7 OrderSide.buy OrderType.limit).2 = true ∧
     lookupOrder (((Book.create 1).add_order 5 1000000 10 OrderSide.buy
        OrderType.limit).1.add_order 6 1000000 7 OrderSide.buy OrderType.limit).1.orders 6
       = some ⟨6, 1, 1000000, 7, 0, OrderSide.buy, OrderType.limit, OrderStatus.active,
           some (1000000, OrderSide.buy)⟩ ∧
     (((Book.create 1).add_order 5 1000000 10 OrderSide.buy
        OrderType.limit).1.add_order 6 1000000 7 OrderSide.buy
        OrderType.limit).1.levelTotalAt OrderSide.buy 1000000
       = ((Book.create 1).add_order 5 1000000 10 OrderSide.buy
           OrderType.limit).1.levelTotalAt OrderSide.buy 1000000 + 7 ∧
     (((Book.create 1).add_order 5 1000000 10 OrderSide.buy
        OrderType.limit).1.add_order 6 1000000 7 OrderSide.buy
        OrderType.limit).1.levelCountAt OrderSide.buy 1000000
       = ((Book.create 1).add_order 5 1000000 10 OrderSide.buy
           OrderType.limit).1.levelCountAt OrderSide.buy 1000000 + 1) :=
  ⟨(add_order_spec ((Book.create 1).add_order 5 1000000 10 OrderSide.buy OrderType.limit).1
      5 1000000 7 OrderSide.buy OrderType.limit).1 (by decide),
   (add_order_spec ((Book.create 1).add_order 5 1000000 10 OrderSide.buy OrderType.limit).1
      6 1000000 7 OrderSide.buy OrderType.limit).2 (by decide) (by decide) (by decide)⟩

/-- C3: after `add_order(1, 1000000, 10, buy)` followed by
`modify_order(1, 2000000, 10)` the old bid level at price 1000000 remains
in the index with `total_quantity = 0` — `modify_order` never calls
`remove_empty_level` on the vacated level, violating the claimed
invariant. -/
theorem modify_order_leaves_empty_level :
    ((((Book.create 1).add_order 1 1000000 10 OrderSide.buy
        OrderType.limit).1.modify_order 1 2000000 10).1.bids.map
          fun l => (l.price, l.total_quantity))
      = [(2000000, 10), (1000000, 0)] ∧
    ∃ l ∈ (((Book.create 1).add_order 1 1000000 10 OrderSide.buy
        OrderType.limit).1.modify_order 1 2000000 10).1.bids, l.total_quantity = 0 := by
  decide

/-- C4: `execute_trade` that fully fills resting order 1 marks it filled
and returns it to the pool but never erases it from the order table: the
table afterwards still maps id 1 to a record with status `filled` (a
dangling pool pointer in the C++ book), violating the claimed
every-entry-is-active invariant. -/
theorem execute_trade_leaves_orphaned_entry :
    lookupOrder ((((Book.create 1).add_order 1 1000000 10 OrderSide.sell
        OrderType.limit).1.execute_trade 1000000 10 OrderSide.buy).1).orders 1
      = some ⟨1, 1, 1000000, 10, 10, OrderSide.sell, OrderType.limit, OrderStatus.filled,
          none⟩ ∧
    ((((Book.create 1).add_order 1 1000000 10 OrderSide.sell
        OrderType.limit).1.execute_trade 1000000 10 OrderSide.buy).1).asks = [] ∧
    ((((Book.create 1).add_order 1 1000000 10 OrderSide.sell
        OrderType.limit).1.execute_trade 1000000 10 OrderSide.buy).2) = true := by
  decide

end MM

namespace MM

/-- Remaining (unfilled) quantity of an order. -/
def remQty (o : Order) : Nat := o.quantity - o.filled_quantity

/-- Sum of remaining quantities over resident active orders pointing at
one level key. -/
def keySum : List (Nat × Order) → (Int × OrderSide) → Nat
  | [], _ => 0
  | e :: rest, key =>
      (if e.2.level = some key ∧ e.2.status = OrderStatus.active then remQty e.2 else 0)
        + keySum rest key

/-- Sum of remaining quantities over active orders of one side — the
victim-side aggregate the claim tracks. -/
def sideRemSum : List (Nat × Order) → OrderSide → Nat
  | [], _ => 0
  | e :: rest, vs =>
      (if e.2.status = OrderStatus.active ∧ e.2.side = vs then remQty e.2 else 0)
        + sideRemSum rest vs

/-- The §3 well-formedness of table entries used by C2: every active order
has `filled ≤ quantity`, a genuine uint32 quantity, and a level
back-pointer keyed by its own price and side. -/
def OrdersWF (os : List (Nat × Order)) : Prop :=
  ∀ e ∈ os, e.2.status = OrderStatus.active →
    e.2.filled_quantity ≤ e.2.quantity ∧ e.2.quantity < U32 ∧
      e.2.level = some (e.2.price, e.2.side)

/-- Spec formula for C2: walking the victim index from the best end, the
trade consumes `min(remaining, level.total_quantity)` at each visited
level and stops at the first level whose price is strictly worse than the
aggressor's limit (or when nothing remains). -/
def specConsumed (aggressor : OrderSide) (limit : Int) :
    List PriceLevel → Nat → Nat
  | [], _ => 0
  | lv :: rest, qty =>
      if qty = 0 then 0
      else if acceptable aggressor limit lv.price then
        min qty lv.total_quantity
          + specConsumed aggressor limit rest (qty - min qty lv.total_quantity)
      else 0


theorem keySum_cons (i : Nat) (o : Order) (rest : List (Nat × Order)) (key : Int × OrderSide) :
    keySum ((i, o) :: rest) key
      = (if o.level = some key ∧ o.status = OrderStatus.active then remQty o else 0)
        + keySum rest key := rfl

theorem sideRemSum_cons (i : Nat) (o : Order) (rest : List (Nat × Order)) (vs : OrderSide) :
    sideRemSum ((i, o) :: rest) vs
      = (if o.status = OrderStatus.active ∧ o.side = vs then remQty o else 0)
        + sideRemSum rest vs := rfl

theorem fillOrders_spec (key : Int × OrderSide) :
    ∀ (os : List (Nat × Order)) (exec : Nat),
    OrdersWF os → exec ≤ keySum os key → exec < U32 →
    OrdersWF (fillOrders os key exec).1 ∧
    keySum (fillOrders os key exec).1 key + exec = keySum os key ∧
    (∀ key2, ¬ key2 = key → keySum (fillOrders os key exec).1 key2 = keySum os key2) ∧
    (∀ vs, sideRemSum (fillOrders os key exec).1 vs
        + (if key.2 = vs then exec else 0) = sideRemSum os vs) ∧
    (fillOrders os key exec).2.2.2 = 0 := by
  intro os
  induction os with
  | nil =>
      intro exec hwf hle hU
      simp only [keySum, Nat.le_zero] at hle
      subst hle
      refine ⟨hwf, by simp [fillOrders, keySum], by simp [fillOrders], ?_, by simp [fillOrders]⟩
      intro vs
      simp [fillOrders, sideRemSum]
  | cons e rest ih =>
      obtain ⟨i, o⟩ := e
      intro exec hwf hle hU
      have hwfr : OrdersWF rest := fun x hx => hwf x (List.mem_cons_of_mem _ hx)
      by_cases hcond : o.level = some key ∧ o.status = OrderStatus.active
      · -- the order is resident at the level and active
        have hwfo := hwf (i, o) (List.mem_cons_self _ _) hcond.2
        dsimp only at hwfo
        obtain ⟨hf, hqU, hlv⟩ := hwfo
        have hkey : key = (o.price, o.side) := by
          have h0 := hcond.1
          rw [hlv] at h0
          exact (Option.some.inj h0).symm
        have hrem : u32sub o.quantity o.filled_quantity
            = o.quantity - o.filled_quantity := u32sub_eq hf hqU
        set oe := min exec (u32sub o.quantity o.filled_quantity) with hoe
        have hoe' : oe = min exec (o.quantity - o.filled_quantity) := by rw [hoe, hrem]
        have hoe_exec : oe ≤ exec := Nat.min_le_left _ _
        have hoe_rem : oe ≤ o.quantity - o.filled_quantity := by
          rw [hoe']; exact Nat.min_le_right _ _
        have hmin : oe = exec ∨ oe = o.quantity - o.filled_quantity := by
          rw [hoe', Nat.min_def]
          split <;> simp
        have hfo : u32add o.filled_quantity oe = o.filled_quantity + oe :=
          u32add_eq (by omega)
        have hexec1 : u32sub exec oe = exec - oe := u32sub_eq hoe_exec hU
        have hksum : keySum ((i, o) :: rest) key
            = (o.quantity - o.filled_quantity) + keySum rest key := by
          rw [keySum_cons, if_pos hcond]; rfl
        have hvs_pos : ∀ vs, key.2 = vs → (o.status = OrderStatus.active ∧ o.side = vs) :=
          fun vs hvs => ⟨hcond.2, by rw [hkey] at hvs; exact hvs⟩
        have hvs_neg : ∀ vs, ¬ key.2 = vs → ¬ (o.status = OrderStatus.active ∧ o.side = vs) :=
          fun vs hvs hx => hvs (by rw [hkey]; exact hx.2)
        have hkk : ∀ k2 : Int × OrderSide, o.level = some k2 → k2 = key :=
          fun k2 h2 => Option.some.inj (h2.symm.trans hcond.1)
        by_cases hfull : u32add o.filled_quantity oe ≥ o.quantity
        · -- full fill: oe equals the remaining quantity
          have hoe_eq : oe = o.quantity - o.filled_quantity := by
            rw [hfo] at hfull; omega
          have hd : u32sub o.quantity (u32add o.filled_quantity oe) = 0 := by
            rw [hfo, hoe_eq]
            have he : o.filled_quantity + (o.quantity - o.filled_quantity) = o.quantity := by
              omega
            rw [he, u32sub_eq (Nat.le_refl _) hqU]
            omega
          by_cases hstop : u32sub exec oe = 0
          · -- the consumed quantity is exhausted here; walk stops
            have hexec_oe : exec = oe := by rw [hexec1] at hstop; omega
            have hfill : fillOrders ((i, o) :: rest) key exec
                = ((i, { o with filled_quantity := u32add o.filled_quantity oe, status := OrderStatus.filled, level := none }) :: rest, 0, 1,
                    u32sub o.quantity (u32add o.filled_quantity oe)) := by
              simp only [fillOrders, if_pos hcond, if_pos hfull, if_pos hstop]
            rw [hfill]
            refine ⟨?_, ?_, ?_, ?_, by simpa using hd⟩
            · intro x hx hact
              rcases List.mem_cons.mp hx with hx1 | hx2
              · subst hx1; simp at hact
              · exact hwfr x hx2 hact
            · rw [keySum_cons, if_neg (by simp)]
              omega
            · intro key2 hk2
              rw [keySum_cons, keySum_cons, if_neg (by simp),
                if_neg (fun hx => hk2 (hkk key2 hx.1))]
            · intro vs
              rw [sideRemSum_cons, sideRemSum_cons, if_neg (by simp)]
              by_cases hvs : key.2 = vs
              · rw [if_pos hvs, if_pos (hvs_pos vs hvs)]
                simp only [remQty]
                omega
              · rw [if_neg hvs, if_neg (hvs_neg vs hvs)]
                omega
          · -- more to distribute: recurse on the tail
            have hfill : fillOrders ((i, o) :: rest) key exec
                = ((i, { o with filled_quantity := u32add o.filled_quantity oe, status := OrderStatus.filled, level := none })
                      :: (fillOrders rest key (u32sub exec oe)).1,
                   ((fillOrders rest key (u32sub exec oe)).2.1,
                    (fillOrders rest key (u32sub exec oe)).2.2.1 + 1,
                    u32sub o.quantity (u32add o.filled_quantity oe)
                      + (fillOrders rest key (u32sub exec oe)).2.2.2)) := by
              simp only [fillOrders, if_pos hcond, if_pos hfull, if_neg hstop]
            have hle' : exec - oe ≤ keySum rest key := by
              rw [hksum] at hle; omega
            have ihr := ih (exec - oe) hwfr hle' (by omega)
            rw [hexec1] at hfill
            rw [hfill]
            refine ⟨?_, ?_, ?_, ?_, ?_⟩
            · intro x hx hact
              rcases List.mem_cons.mp hx with hx1 | hx2
              · subst hx1; simp at hact
              · exact ihr.1 x hx2 hact
            · rw [keySum_cons, if_neg (by simp)]
              have h2 := ihr.2.1
              rw [hksum]
              omega
            · intro key2 hk2
              rw [keySum_cons, keySum_cons, if_neg (by simp),
                if_neg (fun hx => hk2 (hkk key2 hx.1))]
              rw [ihr.2.2.1 key2 hk2]
            · intro vs
              have h3 := ihr.2.2.2.1 vs
              rw [sideRemSum_cons, sideRemSum_cons, if_neg (by simp)]
              by_cases hvs : key.2 = vs
              · rw [if_pos hvs] at h3 ⊢
                rw [if_pos (hvs_pos vs hvs)]
                simp only [remQty] at *
                omega
              · rw [if_neg hvs] at h3 ⊢
                rw [if_neg (hvs_neg vs hvs)]
                omega
            · dsimp only
              rw [hd]
              simpa using ihr.2.2.2.2
        · -- partial fill: oe is strictly below the remaining quantity,
          -- hence oe = exec and the walk stops with the order still active
          have hoe_lt : oe < o.quantity - o.filled_quantity := by
            rw [hfo] at hfull; omega
          have hoe_eq : oe = exec := by omega
          have hstop : u32sub exec oe = 0 := by rw [hexec1]; omega
          have hfill : fillOrders ((i, o) :: rest) key exec
              = ((i, { o with filled_quantity := u32add o.filled_quantity oe }) :: rest,
                  0, 0, 0) := by
            simp only [fillOrders, if_pos hcond, if_neg hfull, if_pos hstop]
          rw [hfill]
          refine ⟨?_, ?_, ?_, ?_, rfl⟩
          · intro x hx hact
            rcases List.mem_cons.mp hx with hx1 | hx2
            · subst hx1
              dsimp only at hact ⊢
              refine ⟨by rw [hfo]; omega, hqU, by simpa using hlv⟩
            · exact hwfr x hx2 hact
          · rw [keySum_cons, if_pos (by exact ⟨by simpa using hcond.1, hcond.2⟩)]
            simp only [remQty, hfo]
            rw [hksum]
            omega
          · intro key2 hk2
            rw [keySum_cons, keySum_cons,
              if_neg (fun hx => hk2 (hkk key2 hx.1)),
              if_neg (fun hx => hk2 (hkk key2 hx.1))]
          · intro vs
            rw [sideRemSum_cons, sideRemSum_cons]
            by_cases hvs : key.2 = vs
            · rw [if_pos hvs, if_pos (by exact ⟨hcond.2, (hvs_pos vs hvs).2⟩),
                if_pos (hvs_pos vs hvs)]
              simp only [remQty, hfo]
              omega
            · rw [if_neg hvs,
                if_neg (fun hx => (hvs_neg vs hvs) ⟨hx.1, hx.2⟩),
                if_neg (hvs_neg vs hvs)]
              omega
      · -- the order is skipped
        have hfill : fillOrders ((i, o) :: rest) key exec
            = ((i, o) :: (fillOrders rest key exec).1,
               ((fillOrders rest key exec).2.1,
                (fillOrders rest key exec).2.2.1,
                (fillOrders rest key exec).2.2.2)) := by
          simp only [fillOrders, if_neg hcond]
        have hks : keySum ((i, o) :: rest) key = keySum rest key := by
          rw [keySum_cons, if_neg hcond]
          omega
        have hle' : exec ≤ keySum rest key := by omega
        have ihr := ih exec hwfr hle' hU
        rw [hfill]
        refine ⟨?_, ?_, ?_, ?_, ihr.2.2.2.2⟩
        · intro x hx hact
          rcases List.mem_cons.mp hx with hx1 | hx2
          · subst hx1
            exact hwf (i, o) (List.mem_cons_self _ _) hact
          · exact ihr.1 x hx2 hact
        · rw [keySum_cons, if_neg hcond, hks]
          have := ihr.2.1
          omega
        · intro key2 hk2
          rw [keySum_cons, keySum_cons, ihr.2.2.1 key2 hk2]
        · intro vs
          have := ihr.2.2.2.1 vs
          rw [sideRemSum_cons, sideRemSum_cons]
          omega

end MM

namespace MM

theorem execLevel_orders (b : Book) (agg : OrderSide) (lv : PriceLevel) (rem : Nat) :
    (b.execLevel agg lv rem).1.orders
      = (fillOrders b.orders (lv.price, victimSide agg) (min rem lv.total_quantity)).1 ∧
    (b.execLevel agg lv rem).2 = u32sub rem (min rem lv.total_quantity) := by
  unfold Book.execLevel
  constructor <;> dsimp only <;> split <;> simp [orders_setSideLevels]

theorem sweep_spec (aggressor : OrderSide) (limit : Int) :
    ∀ (lvs : List PriceLevel) (b : Book) (remaining : Nat),
    OrdersWF b.orders →
    (∀ lv ∈ lvs, lv.total_quantity = keySum b.orders (lv.price, victimSide aggressor)
        ∧ lv.total_quantity < U32) →
    (lvs.map PriceLevel.price).Nodup →
    remaining < U32 →
    sideRemSum (b.sweep aggressor limit lvs remaining).1.orders (victimSide aggressor)
        + specConsumed aggressor limit lvs remaining
      = sideRemSum b.orders (victimSide aggressor) ∧
    (b.sweep aggressor limit lvs remaining).2
        + specConsumed aggressor limit lvs remaining = remaining := by
  intro lvs
  induction lvs with
  | nil =>
      intro b remaining h1 h2 h3 h4
      simp [Book.sweep, specConsumed]
  | cons lv rest ih =>
      intro b remaining hwf hlv hnd hrem
      by_cases hz : remaining = 0
      · subst hz
        simp [Book.sweep, specConsumed]
      · by_cases hacc : acceptable aggressor limit lv.price
        · have hsweep : b.sweep aggressor limit (lv :: rest) remaining
              = (b.execLevel aggressor lv remaining).1.sweep aggressor limit rest
                  (b.execLevel aggressor lv remaining).2 := by
            simp only [Book.sweep, if_neg hz, if_pos hacc]
          have hkey_sum : lv.total_quantity
              = keySum b.orders (lv.price, victimSide aggressor) :=
            (hlv lv (List.mem_cons_self _ _)).1
          have hU : lv.total_quantity < U32 := (hlv lv (List.mem_cons_self _ _)).2
          have hexec_le : min remaining lv.total_quantity
              ≤ keySum b.orders (lv.price, victimSide aggressor) := by
            rw [← hkey_sum]; exact Nat.min_le_right _ _
          have hexecU : min remaining lv.total_quantity < U32 :=
            Nat.lt_of_le_of_lt (Nat.min_le_right _ _) hU
          have hfo := fillOrders_spec (lv.price, victimSide aggressor) b.orders
            (min remaining lv.total_quantity) hwf hexec_le hexecU
          have heo := execLevel_orders b aggressor lv remaining
          have hrem1 : (b.execLevel aggressor lv remaining).2
              = remaining - min remaining lv.total_quantity := by
            rw [heo.2, u32sub_eq (Nat.min_le_left _ _) hrem]
          have hwf1 : OrdersWF (b.execLevel aggressor lv remaining).1.orders := by
            rw [heo.1]; exact hfo.1
          have hnd' : (rest.map PriceLevel.price).Nodup := (List.nodup_cons.mp hnd).2
          have hlv1 : ∀ lv' ∈ rest,
              lv'.total_quantity
                = keySum (b.execLevel aggressor lv remaining).1.orders
                    (lv'.price, victimSide aggressor)
              ∧ lv'.total_quantity < U32 := by
            intro lv' hlv'
            have hne : ¬ ((lv'.price, victimSide aggressor)
                = (lv.price, victimSide aggressor)) := by
              intro hx
              have hpr : lv'.price = lv.price := congrArg Prod.fst hx
              have hmem : lv'.price ∈ rest.map PriceLevel.price :=
                List.mem_map_of_mem _ hlv'
              rw [hpr] at hmem
              exact (List.nodup_cons.mp hnd).1 hmem
            rw [heo.1, hfo.2.2.1 _ hne]
            exact ⟨(hlv lv' (List.mem_cons_of_mem _ hlv')).1,
                   (hlv lv' (List.mem_cons_of_mem _ hlv')).2⟩
          have ihr := ih (b.execLevel aggressor lv remaining).1
            (remaining - min remaining lv.total_quantity) hwf1 hlv1 hnd' (by omega)
          have hkill : sideRemSum (b.execLevel aggressor lv remaining).1.orders
                (victimSide aggressor) + min remaining lv.total_quantity
              = sideRemSum b.orders (victimSide aggressor) := by
            have h1 := hfo.2.2.2.1 (victimSide aggressor)
            rw [if_pos rfl] at h1
            rw [heo.1]
            exact h1
          have hspec : specConsumed aggressor limit (lv :: rest) remaining
              = min remaining lv.total_quantity
                + specConsumed aggressor limit rest
                    (remaining - min remaining lv.total_quantity) := by
            simp only [specConsumed, if_neg hz, if_pos hacc]
          rw [hsweep, hrem1, hspec]
          obtain ⟨ih1, ih2⟩ := ihr
          constructor
          · omega
          · have hle := Nat.min_le_left remaining lv.total_quantity
            omega
        · have hsweep : b.sweep aggressor limit (lv :: rest) remaining = (b, remaining) := by
            simp only [Book.sweep, if_neg hz, if_neg hacc]
          have hspec : specConsumed aggressor limit (lv :: rest) remaining = 0 := by
            simp only [specConsumed, if_neg hz, if_neg hacc]
          rw [hsweep, hspec]
          simp

/-- Accounting identity of the sweep over the repaired (defined-behaviour)
reading of `execute_trade`: for every book state satisfying the §3
invariants (active well-formed table entries pointing at their own level
key, victim-index aggregates equal to the residents' remaining-quantity
sums, distinct level prices, uint32 bounds), the sum of
`quantity − filled_quantity` over the victim side's active orders shrinks
by exactly `specConsumed`, the sum over visited acceptable levels of
`min(remaining, level.total_quantity)`.  This is the spec's intended
post-condition; it is NOT a post-condition of the C++ program, whose
end-of-level erase commits undefined behaviour whenever a level is fully
consumed (see `Book.execLevel` and `Book.execLevelDoubleFree`). -/
theorem execute_trade_victim_sum (b : Book) (price : Int) (quantity : Nat)
    (side : OrderSide)
    (hwf : OrdersWF b.orders)
    (hlv : ∀ lv ∈ b.sideLevels (victimSide side),
        lv.total_quantity = keySum b.orders (lv.price, victimSide side)
          ∧ lv.total_quantity < U32)
    (hnd : ((b.sideLevels (victimSide side)).map PriceLevel.price).Nodup)
    (hq : quantity < U32) :
    sideRemSum (b.execute_trade price quantity side).1.orders (victimSide side)
        + specConsumed side price (b.sideLevels (victimSide side)) quantity
      = sideRemSum b.orders (victimSide side) := by
  cases side with
  | buy =>
      by_cases he : b.asks.isEmpty
      · have hnil : b.asks = [] := by simpa using he
        have hred : b.execute_trade price quantity OrderSide.buy = (b, false) := by
          simp only [Book.execute_trade, if_pos he]
        rw [hred]
        show sideRemSum b.orders (victimSide OrderSide.buy)
            + specConsumed OrderSide.buy price (b.sideLevels (victimSide OrderSide.buy))
                quantity
          = sideRemSum b.orders (victimSide OrderSide.buy)
        have : b.sideLevels (victimSide OrderSide.buy) = [] := hnil
        rw [this]
        simp [specConsumed]
      · have hred : (b.execute_trade price quantity OrderSide.buy).1
            = (b.sweep OrderSide.buy price b.asks quantity).1 := by
          simp only [Book.execute_trade, if_neg he]
        rw [hred]
        exact (sweep_spec OrderSide.buy price b.asks b quantity hwf hlv hnd hq).1
  | sell =>
      by_cases he : b.bids.isEmpty
      · have hnil : b.bids = [] := by simpa using he
        have hred : b.execute_trade price quantity OrderSide.sell = (b, false) := by
          simp only [Book.execute_trade, if_pos he]
        rw [hred]
        show sideRemSum b.orders (victimSide OrderSide.sell)
            + specConsumed OrderSide.sell price (b.sideLevels (victimSide OrderSide.sell))
                quantity
          = sideRemSum b.orders (victimSide OrderSide.sell)
        have : b.sideLevels (victimSide OrderSide.sell) = [] := hnil
        rw [this]
        simp [specConsumed]
      · have hred : (b.execute_trade price quantity OrderSide.sell).1
            = (b.sweep OrderSide.sell price b.bids quantity).1 := by
          simp only [Book.execute_trade, if_neg he]
        rw [hred]
        exact (sweep_spec OrderSide.sell price b.bids b quantity hwf hlv hnd hq).1

/-- The sweep identity instantiated: asks 4 @ 101 and 6 @ 102; a buy of 8
limited at 102 consumes min(8,4) + min(4,6) = 8 over the repaired
reading, the active sell-side remaining sum falling from 10 to 2 (in the
source this input fully consumes level 101 and hence hits the undefined
erase path). -/
theorem execute_trade_victim_sum_witness :
    sideRemSum ((((Book.create 1).add_order 1 101 4 OrderSide.sell
          OrderType.limit).1.add_order 2 102 6 OrderSide.sell
          OrderType.limit).1.execute_trade 102 8 OrderSide.buy).1.orders
        (victimSide OrderSide.buy)
      + specConsumed OrderSide.buy 102
          ((((Book.create 1).add_order 1 101 4 OrderSide.sell
              OrderType.limit).1.add_order 2 102 6 OrderSide.sell
              OrderType.limit).1.sideLevels (victimSide OrderSide.buy)) 8
      = sideRemSum (((Book.create 1).add_order 1 101 4 OrderSide.sell
          OrderType.limit).1.add_order 2 102 6 OrderSide.sell
          OrderType.limit).1.orders (victimSide OrderSide.buy) :=
  execute_trade_victim_sum (((Book.create 1).add_order 1 101 4 OrderSide.sell
      OrderType.limit).1.add_order 2 102 6 OrderSide.sell OrderType.limit).1
    102 8 OrderSide.buy (by unfold OrdersWF; decide) (by decide) (by decide) (by decide)

end MM

namespace MM

/-! ## Scenario driver (`scenario_runner.hpp` / `scenario_runner.cpp`)

The runner is modelled on already-read script lines (file I/O stays
outside the embedding).  `istringstream` token extraction becomes
whitespace splitting; only the first token is lowercased, as in the
source.  `parse_number<Price>` computes in `double`, which the embedding
cannot state exactly; see the caveat on `parsePrice`. -/

/-- `ScenarioCommandType`. -/
inductive CmdType where
  | enable_matching
  | add_symbol
  | delete_symbol
  | add_book
  | delete_book
  | add_limit_buy
  | add_limit_sell
  | add_market_buy
  | add_market_sell
  | reduce_order
  | modify_order
  | replace_order
  | delete_order
  | add_slippage_market_buy
  | add_slippage_market_sell
  | comment
  | unknown
deriving DecidableEq, Repr

/-- Character-level whitespace splitting (structural, so that concrete
scenario runs reduce inside the kernel). -/
def splitWS : List Char → List Char → List String
  | [], cur => if cur = [] then [] else [String.mk cur.reverse]
  | c :: rest, cur =>
      if c = ' ' then
        if cur = [] then splitWS rest []
        else String.mk cur.reverse :: splitWS rest []
      else splitWS rest (c :: cur)

/-- `istringstream` whitespace token extraction. -/
def tokenize (s : String) : List String :=
  splitWS s.data []

/-- Split on a separator character, `std::string`-style: a string with no
separator yields itself as the single piece. -/
def splitOnChar (sep : Char) : List Char → List Char → List String
  | [], cur => [String.mk cur.reverse]
  | c :: rest, cur =>
      if c = sep then String.mk cur.reverse :: splitOnChar sep rest []
      else splitOnChar sep rest (c :: cur)

/-- ASCII `::tolower`. -/
def asciiLower (c : Char) : Char :=
  if 65 ≤ c.toNat ∧ c.toNat ≤ 90 then Char.ofNat (c.toNat + 32) else c

/-- Lowercase every character, as `std::transform` with `::tolower`. -/
def lowerStr (s : String) : String :=
  String.mk (s.data.map asciiLower)

/-- `parse_number` for integer types: `stoll`, with the default value 0 on
a parse failure. -/
def parseNat (s : String) : Nat :=
  if 0 < s.data.length ∧ s.data.all Char.isDigit then
    s.data.foldl (fun n c => n * 10 + (c.toNat - 48)) 0
  else 0

/-- Price argument parsing.  The spec (§4.7) parses price arguments as
decimal dollars converted by the ×10000 fixed-point rule, which this
definition implements exactly.  The C++ `parse_number<Price>` instead
computes `static_cast<Price>(stod(str) * 10000.0)` in `double`
floating-point, which is outside this embedding; for decimals without an
exact binary representation its truncation lands one tick lower (e.g.
"100.10" gives 1000999 there and 1001000 here).  No settled claim's
verdict depends on this definition: the one scenario traced (S6) fails
arity validation before any price is parsed. -/
def parsePrice (s : String) : Int :=
  match splitOnChar '.' s.data [] with
  | [w] => (parseNat w : Int) * 10000
  | [w, f] =>
      if f.data.length ≤ 4 then
        (parseNat w : Int) * 10000 + ((parseNat f * 10 ^ (4 - f.data.length) : Nat) : Int)
      else 0
  | _ => 0

/-- Keyword consumption of `parse_command_line`: the recognized multi-word
command heads, leaving the remaining tokens as arguments. -/
def parse_tokens : List String → CmdType × List String
  | "enable" :: "matching" :: rest => (CmdType.enable_matching, rest)
  | "add" :: "symbol" :: rest => (CmdType.add_symbol, rest)
  | "add" :: "book" :: rest => (CmdType.add_book, rest)
  | "add" :: "limit" :: "buy" :: rest => (CmdType.add_limit_buy, rest)
  | "add" :: "limit" :: "sell" :: rest => (CmdType.add_limit_sell, rest)
  | "add" :: "market" :: "buy" :: rest => (CmdType.add_market_buy, rest)
  | "add" :: "market" :: "sell" :: rest => (CmdType.add_market_sell, rest)
  | "add" :: "slippage" :: "market" :: "buy" :: rest =>
      (CmdType.add_slippage_market_buy, rest)
  | "add" :: "slippage" :: "market" :: "sell" :: rest =>
      (CmdType.add_slippage_market_sell, rest)
  | "delete" :: "symbol" :: rest => (CmdType.delete_symbol, rest)
  | "delete" :: "book" :: rest => (CmdType.delete_book, rest)
  | "delete" :: "order" :: rest => (CmdType.delete_order, rest)
  | "reduce" :: rest => (CmdType.reduce_order, rest)
  | "modify" :: rest => (CmdType.modify_order, rest)
  | "replace" :: rest => (CmdType.replace_order, rest)
  | ts => (CmdType.unknown, ts.drop 1)

/-- `ScenarioRunner::parse_command_line`: full-line `#` comments, else
lowercase the first token and recognize the command greedily. -/
def parse_command_line (line : String) : CmdType × List String :=
  if line.data.headD ' ' = '#' then (CmdType.comment, [])
  else
    match tokenize line with
    | [] => (CmdType.unknown, [])
    | c :: rest => parse_tokens (lowerStr c :: rest)

/-- The driver's mutable context: the book registry, the tracker and the
matching flag. -/
structure SimState where
  books : Manager
  tracker : Tracker
  matching_enabled : Bool

/-- `validate_args`: arity must match exactly. -/
def validate_args (args : List String) (expected : Nat) : Bool :=
  decide (args.length = expected)

/-- `ScenarioRunner::execute_command` and the per-command handlers.  Each
handler first checks its arity (`add limit buy/sell` demand exactly 5
arguments, `add market buy/sell` exactly 4); market handlers execute at
the touch and record the fill only when matching is enabled and a quote
exists. -/
def execute_command (st : SimState) (ty : CmdType) (args : List String) :
    SimState × Bool :=
  match ty with
  | CmdType.enable_matching => ({ st with matching_enabled := true }, true)
  | CmdType.add_symbol =>
      if validate_args args 2 then
        ({ st with books := (st.books.get_order_book (parseNat (args.getD 0 ""))).1 }, true)
      else (st, false)
  | CmdType.delete_symbol => (st, validate_args args 1)
  | CmdType.add_book =>
      if validate_args args 1 then
        ({ st with books := (st.books.get_order_book (parseNat (args.getD 0 ""))).1 }, true)
      else (st, false)
  | CmdType.delete_book => (st, validate_args args 1)
  | CmdType.add_limit_buy =>
      if validate_args args 5 then
        let r := st.books.add_order (parseNat (args.getD 1 "")) (parseNat (args.getD 0 ""))
          (parsePrice (args.getD 2 "")) (parseNat (args.getD 3 "")) OrderSide.buy
          OrderType.limit
        ({ st with books := r.1 }, r.2)
      else (st, false)
  | CmdType.add_limit_sell =>
      if validate_args args 5 then
        let r := st.books.add_order (parseNat (args.getD 1 "")) (parseNat (args.getD 0 ""))
          (parsePrice (args.getD 2 "")) (parseNat (args.getD 3 "")) OrderSide.sell
          OrderType.limit
        ({ st with books := r.1 }, r.2)
      else (st, false)
  | CmdType.add_market_buy =>
      if validate_args args 4 then
        if st.matching_enabled then
          let sid := parseNat (args.getD 1 "")
          let qty := parseNat (args.getD 2 "")
          let oid := parseNat (args.getD 0 "")
          let g := st.books.get_order_book sid
          let ask : Int × Nat := match g.2.asks with
            | [] => ((0 : Int), (0 : Nat))
            | lv :: _ => (lv.price, lv.total_quantity)
          if ask.1 > 0 then
            let e := g.1.execute_trade sid ask.1 qty OrderSide.buy
            let t := st.tracker.record_trade sid ask.1 qty OrderSide.buy oid
            ({ st with books := e.1, tracker := t.1 }, true)
          else ({ st with books := g.1 }, true)
        else (st, true)
      else (st, false)
  | CmdType.add_market_sell =>
      if validate_args args 4 then
        if st.matching_enabled then
          let sid := parseNat (args.getD 1 "")
          let qty := parseNat (args.getD 2 "")
          let oid := parseNat (args.getD 0 "")
          let g := st.books.get_order_book sid
          let bid : Int × Nat := match g.2.bids with
            | [] => ((0 : Int), (0 : Nat))
            | lv :: _ => (lv.price, lv.total_quantity)
          if bid.1 > 0 then
            let e := g.1.execute_trade sid bid.1 qty OrderSide.sell
            let t := st.tracker.record_trade sid bid.1 qty OrderSide.sell oid
            ({ st with books := e.1, tracker := t.1 }, true)
          else ({ st with books := g.1 }, true)
        else (st, true)
      else (st, false)
  | CmdType.reduce_order => (st, validate_args args 3)
  | CmdType.modify_order => (st, validate_args args 4)
  | CmdType.replace_order => (st, validate_args args 5)
  | CmdType.delete_order => (st, validate_args args 1)
  | CmdType.add_slippage_market_buy =>
      if validate_args args 5 then
        if st.matching_enabled then
          let sid := parseNat (args.getD 1 "")
          let qty := parseNat (args.getD 2 "")
          let oid := parseNat (args.getD 0 "")
          let slip := parsePrice (args.getD 3 "")
          let g := st.books.get_order_book sid
          let bid : Int × Nat := match g.2.bids with
            | [] => ((0 : Int), (0 : Nat))
            | lv :: _ => (lv.price, lv.total_quantity)
          if bid.1 > 0 then
            let e := g.1.execute_trade sid (bid.1 + slip) qty OrderSide.buy
            let t := st.tracker.record_trade sid (bid.1 + slip) qty OrderSide.buy oid
            ({ st with books := e.1, tracker := t.1 }, true)
          else ({ st with books := g.1 }, true)
        else (st, true)
      else (st, false)
  | CmdType.add_slippage_market_sell =>
      if validate_args args 5 then
        if st.matching_enabled then
          let sid := parseNat (args.getD 1 "")
          let qty := parseNat (args.getD 2 "")
          let oid := parseNat (args.getD 0 "")
          let slip := parsePrice (args.getD 3 "")
          let g := st.books.get_order_book sid
          let ask : Int × Nat := match g.2.asks with
            | [] => ((0 : Int), (0 : Nat))
            | lv :: _ => (lv.price, lv.total_quantity)
          if ask.1 > 0 then
            let e := g.1.execute_trade sid (ask.1 - slip) qty OrderSide.sell
            let t := st.tracker.record_trade sid (ask.1 - slip) qty OrderSide.sell oid
            ({ st with books := e.1, tracker := t.1 }, true)
          else ({ st with books := g.1 }, true)
        else (st, true)
      else (st, false)
  | CmdType.comment => (st, true)
  | CmdType.unknown => (st, false)

/-- `ScenarioResult`'s fields the claim speaks about; `error_line = 0`
encodes an empty error message. -/
structure ScenarioRes where
  passed : Bool
  error_line : Nat
  orders_processed : Nat
  trades_executed : Nat
deriving DecidableEq, Repr

/-- `parse_scenario_file`'s line loop: empty lines are skipped and only
non-`UNKNOWN` commands are kept, each with its 1-based line number. -/
def parse_scenario_lines : List String → Nat → List (CmdType × List String × Nat)
  | [], _ => []
  | l :: rest, n =>
      if l = "" then parse_scenario_lines rest (n + 1)
      else
        let c := parse_command_line l
        if c.1 = CmdType.unknown then parse_scenario_lines rest (n + 1)
        else (c.1, c.2, n) :: parse_scenario_lines rest (n + 1)

/-- `run_scenario`'s command loop: a failing command flips `passed`,
records the line and stops; each successfully executed limit or market add
bumps `orders_processed`.  Nothing in the runner ever increments
`trades_executed`. -/
def run_commands (st : SimState) (res : ScenarioRes) :
    List (CmdType × List String × Nat) → SimState × ScenarioRes
  | [] => (st, res)
  | (ty, args, n) :: rest =>
      if ty = CmdType.comment then run_commands st res rest
      else
        let r := execute_command st ty args
        if r.2 = false then (r.1, { res with passed := false, error_line := n })
        else
          let res' :=
            if ty = CmdType.add_limit_buy ∨ ty = CmdType.add_limit_sell
                ∨ ty = CmdType.add_market_buy ∨ ty = CmdType.add_market_sell then
              { res with orders_processed := res.orders_processed + 1 }
            else res
          run_commands r.1 res' rest

/-- `run_scenario` on already-read script lines, with a fresh registry and
a default-limits tracker. -/
def run_scenario (lines : List String) : SimState × ScenarioRes :=
  run_commands ⟨Manager.create, Tracker.mk0 PositionLimits.default, false⟩
    ⟨true, 0, 0, 0⟩ (parse_scenario_lines lines 1)

/-- The five S6 script lines. -/
def s6Lines : List String :=
  ["enable matching", "add symbol 1 AAPL", "add limit buy 1 1 100.00 1000",
   "add limit sell 2 1 100.10 1000", "add market buy 3 1 400"]

/-- C9: running the S6 scenario fails at line 3 with nothing processed:
`add limit buy 1 1 100.00 1000` supplies 4 arguments while
`execute_add_limit_buy` demands exactly 5, so `run_scenario` stops with
passed = false, orders_processed = 0 and trades_executed = 0 (which no
code path ever increments), and no position is ever recorded — not the
claimed passed = true, 3 orders, ≥ 1 trade and a long 400 @ $100.10. -/
theorem scenario_s6_fails :
    (run_scenario s6Lines).2 = ⟨false, 3, 0, 0⟩ ∧
    ((run_scenario s6Lines).1.tracker.positions 1) = none := by
  constructor <;> decide

end MM

namespace MM

/-- Marks one level iteration of `execute_trade` on which the source's
behaviour is undefined: the level's aggregate reaches zero (after the
decrement and the walk's removal subtractions) while at least one
resident order fully filled, so `remove_empty_level` has already erased
the map node and pool-freed the level when the outer loop performs
`it = asks_.erase(it)` on the invalidated iterator and deallocates the
level a second time. -/
def Book.execLevelDoubleFree (b : Book) (aggressor : OrderSide) (lv : PriceLevel)
    (remaining : Nat) : Bool :=
  let vs := victimSide aggressor
  let exec := min remaining lv.total_quantity
  let r := fillOrders b.orders (lv.price, vs) exec
  decide (u32sub (u32sub lv.total_quantity exec) r.2.2.2 = 0 ∧ 0 < r.2.2.1)

/-- Whether any level visited by the `execute_trade` sweep hits the
undefined erase path of `Book.execLevelDoubleFree`. -/
def Book.sweepDoubleFree (b : Book) (aggressor : OrderSide) (limit : Int) :
    List PriceLevel → Nat → Bool
  | [], _ => false
  | lv :: rest, remaining =>
      if remaining = 0 then false
      else if acceptable aggressor limit lv.price then
        b.execLevelDoubleFree aggressor lv remaining
          || (b.execLevel aggressor lv remaining).1.sweepDoubleFree aggressor limit rest
              (b.execLevel aggressor lv remaining).2
      else false

/-- Whether a call `execute_trade(price, quantity, side)` reaches the
invalidated-iterator erase and double free. -/
def Book.execute_trade_hits_double_free (b : Book) (price : Int) (quantity : Nat)
    (side : OrderSide) : Bool :=
  match side with
  | OrderSide.buy =>
      if b.asks.isEmpty then false
      else b.sweepDoubleFree OrderSide.buy price b.asks quantity
  | OrderSide.sell =>
      if b.bids.isEmpty then false
      else b.sweepDoubleFree OrderSide.sell price b.bids quantity

/-- C2: the claimed exact-decrease accounting is not a property of the
program, because `execute_trade` has no defined post-state on its central
path: from the §3-invariant book holding one resting sell of 10 at price
1000000 (the well-formedness conjunct certifies the invariants), the buy
of 10 at 1000000 fully consumes the level, so `remove_empty_level`
erases and pool-frees it during the inner walk and the outer loop then
erases the invalidated iterator and deallocates the level again — an
invalidated-iterator `std::map::erase` and a double free, undefined
behaviour in C++, which fires on every full-level consumption reachable
from §3-invariant states.  The level pool of the repaired model records
the damage: two frees against the single level ever allocated. -/
theorem execute_trade_double_free_on_full_level :
    OrdersWF (((Book.create 1).add_order 1 1000000 10 OrderSide.sell
        OrderType.limit).1).orders ∧
    (((Book.create 1).add_order 1 1000000 10 OrderSide.sell
        OrderType.limit).1).level_pool = ⟨1, 0⟩ ∧
    (((Book.create 1).add_order 1 1000000 10 OrderSide.sell
        OrderType.limit).1).execute_trade_hits_double_free 1000000 10 OrderSide.buy
      = true ∧
    ((((Book.create 1).add_order 1 1000000 10 OrderSide.sell
        OrderType.limit).1).execute_trade 1000000 10 OrderSide.buy).1.level_pool
      = ⟨1, 2⟩ := by
  refine ⟨by unfold OrdersWF; decide, by decide, by decide, by decide⟩

end MM
